import Mathlib

/-!
Shallow embedding of the Simple-RDBMS query core (SQL parser, query
executor, table validator, index manager) for verifying the specification
claims.  JavaScript scalar values are modelled by `Value` below; JavaScript
numbers are modelled as exact rationals (every finite double is a dyadic
rational, hence representable), with `vNaN` for the NaN produced by failed
numeric conversions.  A JavaScript `undefined` (absent object key) is
modelled as `Option.none` wherever a value is read out of a row.
Errors thrown by the JavaScript code are modelled with `Except String`.
-/

set_option maxRecDepth 4096

/-- Single-quote character, used when building the error and status messages
of the source verbatim. -/
def sqS : String := ⟨[Char.ofNat 39]⟩

/-- Double-quote character. -/
def dqc : Char := Char.ofNat 34

/-- Single-quote character. -/
def sqc : Char := Char.ofNat 39

/-- A JavaScript scalar value as stored in rows, condition literals and
index keys: `null`, booleans, (finite) numbers, NaN, and strings. -/
inductive Value where
  | vNull : Value
  | vBool (b : Bool) : Value
  | vNum (q : ℚ) : Value
  | vNaN : Value
  | vStr (s : String) : Value
deriving DecidableEq, Repr

/-- A row is a JavaScript object: an association list from column names to
values, first binding wins, insertion order preserved (as JS objects do for
string keys). A key that is absent models `undefined`. -/
abbrev Row := List (String × Value)

/-- Read `row[k]`: `none` models JavaScript `undefined`. -/
def rowGet (r : Row) (k : String) : Option Value :=
  match r.find? (fun p => p.1 = k) with
  | some p => some p.2
  | none => none

/-- JavaScript property assignment `obj[k] = v`: overwrite in place if the
key exists, else append (JS object insertion-order semantics). -/
def rowSet (r : Row) (k : String) (v : Value) : Row :=
  match r with
  | [] => [(k, v)]
  | (k', v') :: rest => if k' = k then (k, v) :: rest else (k', v') :: rowSet rest k v

/-- Object spread `{ ...row, ...updates }`: every binding of `updates` is
assigned over `row` in order. -/
def mergeRow (row updates : Row) : Row :=
  updates.foldl (fun acc p => rowSet acc p.1 p.2) row

/-- ASCII digit test. -/
def isDigitC (c : Char) : Bool := decide ('0' ≤ c) && decide (c ≤ '9')

/-- JavaScript `\w` word character. -/
def isWordChar (c : Char) : Bool := c.isAlphanum || c = '_'

/-- Numeric value of a digit string (empty list gives 0, like JS `Number` on
the empty integer part of `.5`). -/
def natOfDigits (l : List Char) : Nat :=
  l.foldl (fun a c => a * 10 + (c.toNat - 48)) 0

/-- Core of JavaScript `Number(string)` on an optionally signed decimal
numeral (digits, optional point, digits): `none` is NaN.  Exponent and hex
forms of JS are not modelled; no value of those shapes is built anywhere in
this development. -/
def parseDecCore (l : List Char) : Option ℚ :=
  let int := l.takeWhile isDigitC
  let rest := l.dropWhile isDigitC
  match rest with
  | [] => if int.isEmpty then none else some (natOfDigits int)
  | c :: frac =>
    if c = '.' && frac.all isDigitC && (!int.isEmpty || !frac.isEmpty) then
      some ((natOfDigits int : ℚ) + (natOfDigits frac : ℚ) / ((10 : ℚ) ^ frac.length))
    else none

/-- Characters removed by `String.trim` / JS `trim()` (ASCII whitespace). -/
def isWS (c : Char) : Bool := c.isWhitespace

/-- Trim a character list on both ends. -/
def trimChars (l : List Char) : List Char :=
  ((l.dropWhile isWS).reverse.dropWhile isWS).reverse

/-- `String.trim` over the character-list representation. -/
def strTrim (s : String) : String := ⟨trimChars s.data⟩

/-- JavaScript `Number(string)`: trim; empty gives `0`; optional sign then a
decimal numeral; anything else is NaN (`none`). -/
def strToNum (s : String) : Option ℚ :=
  match trimChars s.data with
  | [] => some 0
  | '-' :: rest => (parseDecCore rest).map Neg.neg
  | '+' :: rest => parseDecCore rest
  | l => parseDecCore l

/-- Exponent-and-remainder of dividing out the prime `p` from `n`
(fuel-based for kernel reducibility). -/
def factorOutAux (p : Nat) : Nat → Nat → Nat × Nat
  | 0, n => (0, n)
  | fuel + 1, n =>
    if 2 ≤ p && 1 ≤ n && n % p = 0 then
      let r := factorOutAux p fuel (n / p)
      (r.1 + 1, r.2)
    else (0, n)

/-- Largest `e` with `p ^ e ∣ n`, paired with `n / p ^ e`. -/
def factorOut (p n : Nat) : Nat × Nat := factorOutAux p n n

/-- Left-pad a numeral string with zeros to the given length. -/
def padZeros (s : String) (k : Nat) : String :=
  ⟨List.replicate (k - s.length) '0' ++ s.data⟩

/-- JavaScript `String(number)` for our rational number model: integers
print as integers, other dyadic (base-10-terminating) rationals print their
exact shortest decimal expansion — which is what JS prints for every float
whose decimal expansion is short, the only numbers this development builds.
Rationals with no terminating decimal expansion do not correspond to any
float; they are rendered as a fraction and are unreachable from the
modelled sources. -/
def numToString (q : ℚ) : String :=
  if q.den = 1 then toString q.num
  else
    let f2 := factorOut 2 q.den
    let f5 := factorOut 5 f2.2
    if f5.2 = 1 then
      let k := max f2.1 f5.1
      let m := q.num.natAbs * 10 ^ k / q.den
      let ip := toString (m / 10 ^ k)
      let fp := padZeros (toString (m % 10 ^ k)) k
      (if q.num < 0 then "-" else "") ++ ip ++ "." ++ fp
    else toString q.num ++ "/" ++ toString q.den

/-- JavaScript string conversion of a value (template literals,
`String(value)`). -/
def jsToString : Value → String
  | .vNull => "null"
  | .vBool true => "true"
  | .vBool false => "false"
  | .vNum q => numToString q
  | .vNaN => "NaN"
  | .vStr s => s

/-- JavaScript `ToNumber` on a value; `none` is NaN. -/
def toNumberV : Value → Option ℚ
  | .vNull => some 0
  | .vBool b => some (if b then 1 else 0)
  | .vNum q => some q
  | .vNaN => none
  | .vStr s => strToNum s

/-- `ToNumber` on a possibly-undefined value (`undefined` converts to NaN). -/
def toNumberO : Option Value → Option ℚ
  | none => none
  | some v => toNumberV v

/-- JavaScript loose equality `==` restricted to the value universe of the
system (null/undefined, booleans, numbers, NaN, strings). -/
def looseEq : Option Value → Option Value → Bool
  | none, none => true
  | none, some .vNull => true
  | some .vNull, none => true
  | some .vNull, some .vNull => true
  | none, some _ => false
  | some _, none => false
  | some .vNull, some _ => false
  | some _, some .vNull => false
  | some .vNaN, some _ => false
  | some _, some .vNaN => false
  | some (.vNum p), some (.vNum q) => p = q
  | some (.vStr s), some (.vStr t) => s = t
  | some (.vBool a), some (.vBool b) => a = b
  | some (.vNum p), some (.vStr s) => strToNum s = some p
  | some (.vStr s), some (.vNum p) => strToNum s = some p
  | some (.vBool a), some (.vNum q) => (if a then (1 : ℚ) else 0) = q
  | some (.vNum q), some (.vBool a) => (if a then (1 : ℚ) else 0) = q
  | some (.vBool a), some (.vStr s) => strToNum s = some (if a then 1 else 0)
  | some (.vStr s), some (.vBool a) => strToNum s = some (if a then 1 else 0)

/-- JavaScript strict equality `===` on values. -/
def strictEqV : Value → Value → Bool
  | .vNull, .vNull => true
  | .vBool a, .vBool b => a = b
  | .vNum p, .vNum q => p = q
  | .vStr s, .vStr t => s = t
  | _, _ => false

/-- JavaScript strict equality on possibly-undefined values. -/
def strictEqO : Option Value → Option Value → Bool
  | none, none => true
  | some a, some b => strictEqV a b
  | _, _ => false

/-- SameValueZero, the key equality of JavaScript `Map`: like `===` except
that NaN equals NaN. -/
def svzV : Value → Value → Bool
  | .vNaN, .vNaN => true
  | a, b => strictEqV a b

/-- JavaScript relational comparison `a < b` before the final NaN check:
both strings compare lexicographically, otherwise both convert to numbers;
`none` means the comparison is undefined (NaN involved, result false). -/
def jsLtRaw (a b : Option Value) : Option Bool :=
  match a, b with
  | some (.vStr s), some (.vStr t) => some (decide (s < t))
  | _, _ =>
    match toNumberO a, toNumberO b with
    | some p, some q => some (decide (p < q))
    | _, _ => none

/-- JavaScript `a < b`. -/
def jsLt (a b : Option Value) : Bool := (jsLtRaw a b).getD false

/-- JavaScript `a > b` (`b < a`). -/
def jsGt (a b : Option Value) : Bool := (jsLtRaw b a).getD false

/-- JavaScript `a <= b` (not `b < a`, false on NaN). -/
def jsLe (a b : Option Value) : Bool :=
  match jsLtRaw b a with
  | some r => !r
  | none => false

/-- JavaScript `a >= b` (not `a < b`, false on NaN). -/
def jsGe (a b : Option Value) : Bool :=
  match jsLtRaw a b with
  | some r => !r
  | none => false

/-- The duck-typed condition objects produced by `parseWhereClause`:
either a simple `{column, operator, value}` comparison or a flat
`{type: AND/OR, conditions}` node. -/
inductive Condition where
  | cmp (column : String) (operator : String) (value : Value) : Condition
  | condAnd (conditions : List Condition) : Condition
  | condOr (conditions : List Condition) : Condition
deriving Repr

instance {ε α : Type} [DecidableEq ε] [DecidableEq α] : DecidableEq (Except ε α) := fun a b =>
  match a, b with
  | .ok x, .ok y =>
    if h : x = y then .isTrue (by rw [h]) else .isFalse (fun hc => h (by cases hc; rfl))
  | .error x, .error y =>
    if h : x = y then .isTrue (by rw [h]) else .isFalse (fun hc => h (by cases hc; rfl))
  | .ok _, .error _ => .isFalse (fun hc => Except.noConfusion hc)
  | .error _, .ok _ => .isFalse (fun hc => Except.noConfusion hc)

mutual

/-- `evaluateCondition(row, condition)` of QueryExecutor: AND is
`conditions.every`, OR is `conditions.some` (both short-circuit, so a
throwing child after a deciding one is not reached), a comparison reads
`row[condition.column]` and applies the operator — loose `==`/`!=`,
JS relational operators otherwise; an unknown operator throws. -/
def evaluateCondition (row : Row) : Condition → Except String Bool
  | .condAnd cs => evalEvery row cs
  | .condOr cs => evalSome row cs
  | .cmp col op v =>
    let value := rowGet row col
    let compareValue := some v
    match op with
    | "=" => .ok (looseEq value compareValue)
    | "!=" => .ok (!looseEq value compareValue)
    | ">" => .ok (jsGt value compareValue)
    | "<" => .ok (jsLt value compareValue)
    | ">=" => .ok (jsGe value compareValue)
    | "<=" => .ok (jsLe value compareValue)
    | _ => .error ("Unknown operator: " ++ op)

/-- `conditions.every(...)`: left to right, short-circuits on the first
false child (later throwing children are not reached). -/
def evalEvery (row : Row) : List Condition → Except String Bool
  | [] => .ok true
  | c :: rest => do
    let b ← evaluateCondition row c
    if b then evalEvery row rest else pure false

/-- `conditions.some(...)`: left to right, short-circuits on the first
true child. -/
def evalSome (row : Row) : List Condition → Except String Bool
  | [] => .ok false
  | c :: rest => do
    let b ← evaluateCondition row c
    if b then pure true else evalSome row rest

end

/-- Is this row value skipped by index construction? `buildIndex` only
records values with `value !== null && value !== undefined`. -/
def isNullish : Option Value → Bool
  | none => true
  | some .vNull => true
  | some _ => false

/-- An in-memory index: the entry list of a JavaScript `Map` from column
value to the ordered list of row positions, in key-insertion order. -/
abbrev IndexMap := List (Value × List Nat)

/-- `Map` update used by `buildIndex`: append position `i` to the entry
whose key is SameValueZero-equal to `v`, or push a fresh entry at the end. -/
def idxInsert : IndexMap → Value → Nat → IndexMap
  | [], v, i => [(v, [i])]
  | (k, ps) :: rest, v, i =>
    if svzV k v then (k, ps ++ [i]) :: rest else (k, ps) :: idxInsert rest v i

/-- `index.get(value) || []` on a `Map`: the position list of the entry
whose key is SameValueZero-equal to `value`, defaulting to `[]`. -/
def idxLookup : IndexMap → Value → List Nat
  | [], _ => []
  | (k, ps) :: rest, v => if svzV k v then ps else idxLookup rest v

/-- `buildIndex` of IndexManager, iterating `rows.forEach((row, rowIndex))`
from position `i`: null/undefined column values are not indexed. -/
def buildIndexFrom (col : String) : Nat → List Row → IndexMap → IndexMap
  | _, [], idx => idx
  | i, r :: rest, idx =>
    match rowGet r col with
    | none => buildIndexFrom col (i + 1) rest idx
    | some .vNull => buildIndexFrom col (i + 1) rest idx
    | some v => buildIndexFrom col (i + 1) rest (idxInsert idx v i)

/-- The index `buildIndex(tableName, columnName, rows)` constructs for a
column over a row sequence. -/
def buildIndex (col : String) (rows : List Row) : IndexMap :=
  buildIndexFrom col 0 rows []

/-- The JSON document `buildIndex` persists to
`<table>_<column>.idx.json`: table, column, the `Map` entries, and the
`new Date().toISOString()` timestamp of the call.  `JSON.stringify` is
deterministic and injective on this record, so byte-for-byte equality of
the persisted files is equality of these structures. -/
structure IndexFileData where
  tableName : String
  columnName : String
  entries : IndexMap
  createdAt : String
deriving DecidableEq, Repr

/-- `buildIndex`: builds the in-memory map from the rows and persists it
together with the timestamp `now` of the call. -/
def buildIndexFile (t c : String) (rows : List Row) (now : String) : IndexFileData :=
  { tableName := t, columnName := c, entries := buildIndex c rows, createdAt := now }

/-- `rebuildIndex(tableName, columnName, rows)`: `dropIndex` (deleting the
old file and cache entry) followed by `buildIndex`; the persisted result is
exactly that of the fresh `buildIndex`. -/
def rebuildIndexFile (t c : String) (rows : List Row) (now : String) : IndexFileData :=
  buildIndexFile t c rows now

/-- `lookup(tableName, columnName, value)` of IndexManager against an
optional loaded index: `none` (no index file) gives `null`, otherwise
`index.get(value) || []`. -/
def lookup (idx : Option IndexMap) (v : Value) : Option (List Nat) :=
  match idx with
  | none => none
  | some m => some (idxLookup m v)

/-- `rows.filter(row => p(row))` for a possibly-throwing predicate:
evaluated left to right, the first thrown error aborts the filter. -/
def filterE (p : Row → Except String Bool) : List Row → Except String (List Row)
  | [] => .ok []
  | r :: rest => do
    let b ← p r
    let tail ← filterE p rest
    pure (if b then r :: tail else tail)

/-- The full-scan arm of `filterRows`:
`rows.filter(row => evaluateCondition(row, whereClause))`.  Every row of a
scan result is a present (non-`undefined`) row. -/
def scanRows (rows : List Row) (w : Condition) : Except String (List (Option Row)) :=
  (filterE (fun r => evaluateCondition r w) rows).map (List.map some)

/-- `filterRows(rows, whereClause, tableName)` of QueryExecutor, with the
Index Manager abstracted to the per-column lookup `idxFor` for this table.
A top-level simple condition with truthy `column` and operator `=` first
tries `indexManager.lookup`; a non-null result is mapped through
`rows[idx]` (an out-of-range position yields JS `undefined`, here `none`).
Everything else falls back to the full scan. -/
def filterRows (idxFor : String → Option IndexMap) (rows : List Row) (w : Condition) :
    Except String (List (Option Row)) :=
  match w with
  | .cmp col "=" v =>
    if col = "" then scanRows rows w
    else
      match lookup (idxFor col) v with
      | some indices => .ok (indices.map (fun i => rows.get? i))
      | none => scanRows rows w
  | _ => scanRows rows w

/-- Uppercase a string (ASCII, as the source's type and keyword names are). -/
def strUpper (s : String) : String := ⟨s.data.map Char.toUpper⟩

/-- Lowercase a string (ASCII). -/
def strLower (s : String) : String := ⟨s.data.map Char.toLower⟩

/-- Signed digit-prefix parse shared by `parseInt`/`parseFloat`: sign
handling over a prefix parser for the remaining characters. -/
def signedPrefix (core : List Char → Option ℚ) (l : List Char) : Option ℚ :=
  match l with
  | '-' :: rest => (core rest).map Neg.neg
  | '+' :: rest => core rest
  | _ => core l

/-- Digit-prefix core of `parseInt(s, 10)`: at least one leading digit,
ignore the rest. -/
def parseIntCore (l : List Char) : Option ℚ :=
  let int := l.takeWhile isDigitC
  if int.isEmpty then none else some (natOfDigits int)

/-- Decimal-prefix core of `parseFloat(s)`: `digits[.digits]` or `.digits`
prefix, at least one digit, ignore the rest (exponents not modelled). -/
def parseFloatCore (l : List Char) : Option ℚ :=
  let int := l.takeWhile isDigitC
  let rest := l.dropWhile isDigitC
  let frac :=
    match rest with
    | '.' :: r => r.takeWhile isDigitC
    | _ => []
  if int.isEmpty && frac.isEmpty then none
  else some ((natOfDigits int : ℚ) + (natOfDigits frac : ℚ) / ((10 : ℚ) ^ frac.length))

/-- JavaScript `parseInt(value, 10)`: stringify, trim, parse the signed
digit prefix; NaN when no digits. -/
def parseIntV (v : Value) : Value :=
  match signedPrefix parseIntCore (trimChars (jsToString v).data) with
  | some q => .vNum q
  | none => .vNaN

/-- JavaScript `parseFloat(value)`: stringify, trim, parse the signed
decimal prefix; NaN when no digits. -/
def parseFloatV (v : Value) : Value :=
  match signedPrefix parseFloatCore (trimChars (jsToString v).data) with
  | some q => .vNum q
  | none => .vNaN

/-- A column of a table schema. -/
structure Column where
  name : String
  type : String
  constraints : List String
deriving DecidableEq, Repr

/-- Table metadata as written by `StorageEngine.createTable` (the
`createdAt` timestamp is irrelevant to every claim and omitted).
`primaryKey = some ""` models the falsy empty-string primary key, which the
source treats like `null`. -/
structure Metadata where
  columns : List Column
  primaryKey : Option String
  uniqueKeys : List String
deriving DecidableEq, Repr

/-- Truthiness of the optional `metadata.primaryKey` (`null` and `""` are
falsy in JS). -/
def pkTruthy : Option String → Option String
  | none => none
  | some pk => if pk = "" then none else some pk

namespace Table

/-- `validateType(value, type)` of Table. -/
def validateType (value : Value) (type : String) : Bool :=
  match strUpper type with
  | "INTEGER" | "INT" =>
    match toNumberV value with
    | some q => q.den = 1
    | none => false
  | "TEXT" | "VARCHAR" =>
    match value with
    | .vStr _ => true
    | _ => false
  | "BOOLEAN" | "BOOL" =>
    match value with
    | .vBool _ => true
    | .vStr s => s = "true" || s = "false"
    | _ => false
  | "FLOAT" | "REAL" => parseFloatV value != .vNaN
  | _ => true

/-- `coerceType(value, type)` of Table. -/
def coerceType (value : Value) (type : String) : Value :=
  match value with
  | .vNull => .vNull
  | v =>
    match strUpper type with
    | "INTEGER" | "INT" => parseIntV v
    | "TEXT" | "VARCHAR" => .vStr (jsToString v)
    | "BOOLEAN" | "BOOL" =>
      match v with
      | .vBool b => .vBool b
      | .vStr s => .vBool (s = "true" || s = "1")
      | .vNum q => .vBool (q = 1)
      | _ => .vBool false
    | "FLOAT" | "REAL" => parseFloatV v
    | _ => v

/-- The 0–2 validation errors `validateRow` collects for one column:
a NOT_NULL violation, then (for present values) a type mismatch. -/
def columnErrors (row : Row) (c : Column) : List String :=
  let value := rowGet row c.name
  (if "NOT_NULL" ∈ c.constraints && isNullish value then
    ["Column " ++ sqS ++ c.name ++ sqS ++ " cannot be null"]
  else []) ++
  (match value with
   | some .vNull => []
   | none => []
   | some v =>
     if validateType v c.type then []
     else ["Invalid type for column " ++ sqS ++ c.name ++ sqS ++ ". Expected " ++ c.type]
  )

/-- All violations `validateRow` collects over the declared columns, in
order. -/
def rowErrors (meta : Metadata) (row : Row) : List String :=
  meta.columns.flatMap (columnErrors row)

/-- `validateRow(row)` of Table: throws one combined error listing every
violation. -/
def validateRow (meta : Metadata) (row : Row) : Except String Unit :=
  match rowErrors meta row with
  | [] => .ok ()
  | errs => .error ("Validation failed: " ++ String.intercalate ", " errs)

/-- The body of `validatePrimaryKey` once a truthy primary-key column is
known: a null/undefined key value throws `cannot be null`; a
strict-equality (`===`) duplicate among the existing rows throws
`Duplicate primary key value`. -/
def pkCheck (pkColumn : String) (existingRows : List Row) (pkValue : Option Value) :
    Except String Unit :=
  match pkValue with
  | none => .error ("Primary key " ++ sqS ++ pkColumn ++ sqS ++ " cannot be null")
  | some .vNull => .error ("Primary key " ++ sqS ++ pkColumn ++ sqS ++ " cannot be null")
  | some v =>
    match existingRows.find? (fun r => strictEqO (rowGet r pkColumn) (some v)) with
    | some _ => .error ("Duplicate primary key value: " ++ jsToString v)
    | none => .ok ()

/-- `validatePrimaryKey(row, existingRows)` of Table: nothing to do without
a (truthy) primary key, else check `row[pkColumn]`. -/
def validatePrimaryKey (meta : Metadata) (row : Row) (existingRows : List Row) :
    Except String Unit :=
  match pkTruthy meta.primaryKey with
  | none => .ok ()
  | some pkColumn => pkCheck pkColumn existingRows (rowGet row pkColumn)

/-- `validateUniqueKeys(row, existingRows)` of Table over the schema's
unique-key list: null/undefined candidate values are skipped entirely; a
strict-equality duplicate throws. -/
def validateUniqueKeys (row : Row) (existingRows : List Row) :
    List String → Except String Unit
  | [] => .ok ()
  | uniqueKey :: rest =>
    match rowGet row uniqueKey with
    | none => validateUniqueKeys row existingRows rest
    | some .vNull => validateUniqueKeys row existingRows rest
    | some v =>
      match existingRows.find? (fun r => strictEqO (rowGet r uniqueKey) (some v)) with
      | some _ =>
        .error ("Duplicate unique key value for " ++ sqS ++ uniqueKey ++ sqS ++ ": " ++ jsToString v)
      | none => validateUniqueKeys row existingRows rest

/-- `prepareRow(row)` of Table: every declared column becomes present, with
its raw value coerced to the declared type, or null when absent. -/
def prepareRow (meta : Metadata) (row : Row) : Row :=
  meta.columns.foldl
    (fun acc c =>
      match rowGet row c.name with
      | some v => rowSet acc c.name (coerceType v c.type)
      | none => rowSet acc c.name .vNull)
    []

/-- `insert(row)` of Table: prepare, load existing rows, run the three
validators in order (the first thrown error aborts before any storage
write), then append via `storageEngine.insertRow`, which returns the
stored row.  The result pairs the returned row with the new stored row
sequence. -/
def insert (meta : Metadata) (existingRows : List Row) (row : Row) :
    Except String (Row × List Row) := do
  let preparedRow := prepareRow meta row
  validateRow meta preparedRow
  validatePrimaryKey meta preparedRow existingRows
  validateUniqueKeys preparedRow existingRows meta.uniqueKeys
  pure (preparedRow, existingRows ++ [preparedRow])

/-- `update(updates, condition)` of Table: map over the loaded rows in
order, replacing each matching row by the spread-merge of the updates over
it (a thrown condition error aborts before the save); returns the count
of modified rows with the saved row sequence. -/
def update (updates : Row) (condition : Option (Row → Except String Bool)) :
    List Row → Except String (Nat × List Row)
  | [] => .ok (0, [])
  | r :: rest => do
    let b ←
      match condition with
      | none => pure true
      | some c => c r
    let tail ← update updates condition rest
    if b then pure (tail.1 + 1, mergeRow r updates :: tail.2)
    else pure (tail.1, r :: tail.2)

/-- `delete(condition)` of Table: keep the rows failing the condition,
return the number removed with the saved row sequence. -/
def deleteRows (condition : Row → Except String Bool) (rows : List Row) :
    Except String (Nat × List Row) := do
  let newRows ← filterE (fun r => (condition r).map (!·)) rows
  pure (rows.length - newRows.length, newRows)

end Table

/-- The parsed JOIN clause of a SELECT (`on` kept as raw text, exactly as
the parser stores it). -/
structure JoinClause where
  tableName : String
  tableAlias : Option String
  onText : String
deriving Repr

/-- The parsed SELECT AST node. -/
structure SelectQuery where
  columns : List String
  tableName : String
  tableAlias : Option String
  join : Option JoinClause
  whereC : Option Condition
deriving Repr

/-- The tagged AST produced by `SQLParser.parse`, one case per statement
kind. -/
inductive AST where
  | createTableQ (tableName : String) (schema : Metadata) : AST
  | insertQ (tableName : String) (row : Row) : AST
  | selectQ (q : SelectQuery) : AST
  | updateQ (tableName : String) (updates : Row) (whereC : Option Condition) : AST
  | deleteQ (tableName : String) (whereC : Option Condition) : AST
  | dropTableQ (tableName : String) : AST
deriving Repr

/-- The result record a query evaluates to.  Source executor results carry
`success` plus a statement-kind-dependent subset of the other fields
(`none` models an absent field); the `table` object returned by CREATE
TABLE is modelled by the table's name.  `error` is only set by the `query`
boundary. -/
structure ExecResult where
  success : Bool
  message : Option String := none
  rows : Option (List (Option Row)) := none
  count : Option Nat := none
  row : Option Row := none
  table : Option String := none
  error : Option String := none
deriving DecidableEq, Repr

/-- Database state: the storage engine's per-table metadata and row
sequence, and the Index Manager's per-(table, column) indexes (disk file
and cache agree at every boundary the claims observe, so one map models
both). -/
structure DBState where
  tables : List (String × Metadata × List Row)
  indexes : List ((String × String) × IndexMap)
deriving DecidableEq, Repr

/-- `storage.tableExists`. -/
def tableExists (db : DBState) (t : String) : Bool :=
  (db.tables.find? (fun p => p.1 = t)).isSome

/-- `storage.getTableMetadata` + `loadTableData` (throws NotFound). -/
def getTableMeta (db : DBState) (t : String) : Except String (Metadata × List Row) :=
  match db.tables.find? (fun p => p.1 = t) with
  | some p => .ok p.2
  | none => .error ("Table " ++ sqS ++ t ++ sqS ++ " does not exist")

/-- `storage.saveTableData`: overwrite the row sequence of a table. -/
def saveTableRows (db : DBState) (t : String) (rows : List Row) : DBState :=
  { db with tables := db.tables.map (fun p => if p.1 = t then (p.1, p.2.1, rows) else p) }

/-- The index the Index Manager holds for a (table, column) pair, if any. -/
def idxFor (db : DBState) (t c : String) : Option IndexMap :=
  match db.indexes.find? (fun p => p.1 = (t, c)) with
  | some p => some p.2
  | none => none

/-- `dropIndex`: remove the file and cache entry of one (table, column). -/
def idxRemove (idxs : List ((String × String) × IndexMap)) (key : String × String) :
    List ((String × String) × IndexMap) :=
  idxs.filter (fun p => p.1 ≠ key)

/-- `rebuildIndex` on the store: drop then build (the rebuilt index is
recorded for its key). -/
def idxSet (idxs : List ((String × String) × IndexMap)) (key : String × String)
    (m : IndexMap) : List ((String × String) × IndexMap) :=
  idxRemove idxs key ++ [(key, m)]

/-- `database.rebuildIndexes(tableName)` on the index store: rebuild the
primary-key index (when the primary key is truthy) and every unique-key
index over the current rows. -/
def rebuildIndexesState (meta : Metadata) (t : String) (rows : List Row)
    (idxs : List ((String × String) × IndexMap)) : List ((String × String) × IndexMap) :=
  let idxs1 :=
    match pkTruthy meta.primaryKey with
    | some pk => idxSet idxs (t, pk) (buildIndex pk rows)
    | none => idxs
  meta.uniqueKeys.foldl (fun acc u => idxSet acc (t, u) (buildIndex u rows)) idxs1

/-- `database.rebuildIndexes(tableName)`: reload metadata and rows, then
rebuild all default indexes. -/
def rebuildIndexes (db : DBState) (t : String) : Except String DBState := do
  let td ← getTableMeta db t
  pure { db with indexes := rebuildIndexesState td.1 t td.2 db.indexes }

/-- `indexManager.createDefaultIndexes`: build (not rebuild) the same index
set; on the store model this coincides with rebuilding. -/
def createDefaultIndexesState (meta : Metadata) (t : String) (rows : List Row)
    (idxs : List ((String × String) × IndexMap)) : List ((String × String) × IndexMap) :=
  rebuildIndexesState meta t rows idxs

/-- `executeCreateTable`: storage table creation (throws when the table
already exists), then default indexes over an empty row set. -/
def executeCreateTable (db : DBState) (tableName : String) (schema : Metadata) :
    Except String (ExecResult × DBState) :=
  if tableExists db tableName then
    .error ("Table " ++ sqS ++ tableName ++ sqS ++ " already exists")
  else
    let db1 : DBState := { db with tables := db.tables ++ [(tableName, schema, [])] }
    let db2 : DBState := { db1 with indexes := createDefaultIndexesState schema tableName [] db1.indexes }
    .ok ({ success := true,
           message := some ("Table " ++ sqS ++ tableName ++ sqS ++ " created successfully"),
           table := some tableName }, db2)

/-- `executeInsert`: `table.insert` then `database.rebuildIndexes`. -/
def executeInsert (db : DBState) (tableName : String) (row : Row) :
    Except String (ExecResult × DBState) := do
  let td ← getTableMeta db tableName
  let ins ← Table.insert td.1 td.2 row
  let db1 := saveTableRows db tableName ins.2
  let db2 ← rebuildIndexes db1 tableName
  pure ({ success := true,
          message := some ("Row inserted into " ++ sqS ++ tableName ++ sqS),
          row := some ins.1 }, db2)

/-- `charAt(0)` of a string, as a string. -/
def strTake1 (s : String) : String :=
  match s.data with
  | [] => ""
  | c :: _ => ⟨[c]⟩

/-- `col.includes(".")`. -/
def hasDotChar (s : String) : Bool := s.data.contains '.'

/-- `key.endsWith(suffix)`. -/
def strEndsWith (s suffix : String) : Bool := suffix.data.isSuffixOf s.data

/-- One attempted match of the ON-clause pattern
`(\w+)\.(\w+)\s*=\s*(\w+)\.(\w+)` at the start of the text.  All four
token classes involved are disjoint, so the regex's greedy `\w+` groups
are exactly maximal munch. -/
def matchOnPattern (l : List Char) : Option (String × String × String × String) :=
  let w1 := l.takeWhile isWordChar
  let r1 := l.dropWhile isWordChar
  if w1.isEmpty then none else
  match r1 with
  | '.' :: r2 =>
    let w2 := r2.takeWhile isWordChar
    let r3 := r2.dropWhile isWordChar
    if w2.isEmpty then none else
    match r3.dropWhile isWS with
    | '=' :: r5 =>
      let r6 := r5.dropWhile isWS
      let w3 := r6.takeWhile isWordChar
      let r7 := r6.dropWhile isWordChar
      if w3.isEmpty then none else
      match r7 with
      | '.' :: r8 =>
        let w4 := r8.takeWhile isWordChar
        if w4.isEmpty then none else some (⟨w1⟩, ⟨w2⟩, ⟨w3⟩, ⟨w4⟩)
      | _ => none
    | _ => none
  | _ => none

/-- Unanchored regex search for the ON-clause pattern: try every start
position left to right, as `String.prototype.match` does. -/
def searchOnPattern : List Char → Option (String × String × String × String)
  | [] => none
  | c :: rest =>
    match matchOnPattern (c :: rest) with
    | some r => some r
    | none => searchOnPattern rest

/-- Merge one joined row pair with fully qualified keys
(`leftTableName.column`, then `rightTableName.column`), in
`Object.entries` order. -/
def qualifyInto (acc : Row) (t : String) (r : Row) : Row :=
  r.foldl (fun a p => rowSet a (t ++ "." ++ p.1) p.2) acc

/-- Projection of one merged row over an explicit column list: a dotted
token is looked up verbatim; a bare token resolves through the first
qualified key ending in `.token`; a missing column is simply absent. -/
def projectJoinRow (columns : List String) (row : Row) : Row :=
  columns.foldl
    (fun proj col =>
      if hasDotChar col then
        match rowGet row col with
        | some v => rowSet proj col v
        | none => proj
      else
        match row.find? (fun p => strEndsWith p.1 ("." ++ col)) with
        | some p => rowSet proj col p.2
        | none => proj)
    []

/-- `executeJoin`: parse the ON text, resolve which equality side belongs
to which table by comparing aliases (defaulting to the first character of
the table name), nested-loop join with strict `===` key comparison, fully
qualified merge, then projection.  The query's WHERE clause is not
consulted anywhere in this function — exactly as in the source. -/
def executeJoin (db : DBState) (q : SelectQuery) (j : JoinClause) :
    Except String (ExecResult × DBState) := do
  let leftT ← getTableMeta db q.tableName
  let rightT ← getTableMeta db j.tableName
  let leftRows := leftT.2
  let rightRows := rightT.2
  match searchOnPattern j.onText.data with
  | none => .error "Invalid JOIN ON clause"
  | some (leftAlias, leftCol, rightAlias, rightCol) =>
    let leftJoinCol :=
      if leftAlias = q.tableAlias.getD (strTake1 q.tableName) then leftCol else rightCol
    let rightJoinCol :=
      if rightAlias = j.tableAlias.getD (strTake1 j.tableName) then rightCol else leftCol
    let joinedRows := leftRows.flatMap (fun leftRow =>
      rightRows.filterMap (fun rightRow =>
        if strictEqO (rowGet leftRow leftJoinCol) (rowGet rightRow rightJoinCol) then
          some (qualifyInto (qualifyInto [] q.tableName leftRow) j.tableName rightRow)
        else none))
    let result :=
      if q.columns.headD "" = "*" then joinedRows
      else joinedRows.map (projectJoinRow q.columns)
    pure ({ success := true, rows := some (result.map some), count := some result.length }, db)

/-- Projection of filtered rows over an explicit column list; reading a
property of an `undefined` row (reachable only through a stale index
position) throws a TypeError. -/
def projectRows (columns : List String) : List (Option Row) → Except String (List (Option Row))
  | [] => .ok []
  | none :: _ => .error "TypeError: Cannot read properties of undefined"
  | some r :: rest => do
    let tail ← projectRows columns rest
    pure (some (columns.foldl
      (fun acc col =>
        match rowGet r col with
        | some v => rowSet acc col v
        | none => acc) []) :: tail)

/-- The `// Apply WHERE clause` step of `executeSelect`: filter through
`filterRows` when a WHERE condition is present, else pass the loaded rows
through. -/
def whereRows (db : DBState) (q : SelectQuery) (rows : List Row) :
    Except String (List (Option Row)) :=
  match q.whereC with
  | some w => filterRows (fun c => idxFor db q.tableName c) rows w
  | none => pure (rows.map some)

/-- `executeSelect`: dispatch to `executeJoin` when a join is present; else
load all rows, filter via `filterRows` (index-assisted when possible), and
project. -/
def executeSelect (db : DBState) (q : SelectQuery) : Except String (ExecResult × DBState) :=
  match q.join with
  | some j => executeJoin db q j
  | none => do
    let td ← getTableMeta db q.tableName
    let rows ← whereRows db q td.2
    let projected ←
      (if q.columns.headD "" = "*" then pure rows else projectRows q.columns rows)
    pure ({ success := true, rows := some projected, count := some projected.length }, db)

/-- `executeUpdate`: `table.update` with the evaluated WHERE condition (or
none), save, rebuild indexes, report the modified-row count. -/
def executeUpdate (db : DBState) (tableName : String) (updates : Row)
    (whereC : Option Condition) : Except String (ExecResult × DBState) := do
  let td ← getTableMeta db tableName
  let condition := whereC.map (fun w => fun (row : Row) => evaluateCondition row w)
  let res ← Table.update updates condition td.2
  let db1 := saveTableRows db tableName res.2
  let db2 ← rebuildIndexes db1 tableName
  pure ({ success := true,
          message := some ("Updated " ++ toString res.1 ++ " row(s)"),
          count := some res.1 }, db2)

/-- `executeDelete`: like update, with delete-all when WHERE is absent. -/
def executeDelete (db : DBState) (tableName : String) (whereC : Option Condition) :
    Except String (ExecResult × DBState) := do
  let td ← getTableMeta db tableName
  let condition : Row → Except String Bool :=
    match whereC with
    | some w => fun row => evaluateCondition row w
    | none => fun _ => pure true
  let res ← Table.deleteRows condition td.2
  let db1 := saveTableRows db tableName res.2
  let db2 ← rebuildIndexes db1 tableName
  pure ({ success := true,
          message := some ("Deleted " ++ toString res.1 ++ " row(s)"),
          count := some res.1 }, db2)

/-- `executeDropTable` via `database.dropTable`: drop the primary/unique
indexes, then drop the table. -/
def executeDropTable (db : DBState) (tableName : String) :
    Except String (ExecResult × DBState) := do
  let td ← getTableMeta db tableName
  let idxs1 :=
    match pkTruthy td.1.primaryKey with
    | some pk => idxRemove db.indexes (tableName, pk)
    | none => db.indexes
  let idxs2 := td.1.uniqueKeys.foldl (fun acc u => idxRemove acc (tableName, u)) idxs1
  let db' : DBState :=
    { tables := db.tables.filter (fun p => p.1 ≠ tableName), indexes := idxs2 }
  pure ({ success := true,
          message := some ("Table " ++ sqS ++ tableName ++ sqS ++ " dropped successfully") }, db')

/-- `execute(parsedQuery)` of QueryExecutor: dispatch on the statement
kind (the unknown-kind default branch is unreachable over the typed AST). -/
def execute (db : DBState) : AST → Except String (ExecResult × DBState)
  | .createTableQ t schema => executeCreateTable db t schema
  | .insertQ t row => executeInsert db t row
  | .selectQ q => executeSelect db q
  | .updateQ t updates w => executeUpdate db t updates w
  | .deleteQ t w => executeDelete db t w
  | .dropTableQ t => executeDropTable db t

/-- `pre` is a prefix of `s`. -/
def strStartsWith (s pre : String) : Bool := pre.data.isPrefixOf s.data

/-- Case-insensitive prefix test of an (uppercase) pattern against a
character list. -/
def ciPrefix (pat : String) (l : List Char) : Bool :=
  pat.data.isPrefixOf (l.map Char.toUpper)

/-- `String.prototype.split` on a non-empty separator: split at each
non-overlapping occurrence, left to right (fuel-based structural
recursion; the fuel is always sufficient). -/
def splitOnAux (pat : List Char) : Nat → List Char → List Char → List (List Char)
  | _, [], cur => [cur.reverse]
  | 0, l, cur => [cur.reverse ++ l]
  | fuel + 1, c :: rest, cur =>
    if pat.isPrefixOf (c :: rest) then
      cur.reverse :: splitOnAux pat fuel ((c :: rest).drop pat.length) []
    else splitOnAux pat fuel rest (c :: cur)

/-- JavaScript `s.split(pat)` for the non-empty separators the source uses
(an empty separator is never passed). -/
def jsSplit (s pat : String) : List String :=
  if pat.data.isEmpty then [s]
  else (splitOnAux pat.data (s.data.length + 1) s.data []).map (fun l => ⟨l⟩)

/-- JavaScript `s.includes(pat)` for non-empty `pat`: at least two split
parts. -/
def strContains (s pat : String) : Bool := 2 ≤ (jsSplit s pat).length

/-- Case-insensitive split on an uppercase separator pattern, modelling
`split(/\s+AND\s+/i)` and `split(/\s+OR\s+/i)` over whitespace-normalized
text. -/
def splitCIAux (pat : List Char) : Nat → List Char → List Char → List (List Char)
  | _, [], cur => [cur.reverse]
  | 0, l, cur => [cur.reverse ++ l]
  | fuel + 1, c :: rest, cur =>
    if pat.isPrefixOf ((c :: rest).map Char.toUpper) then
      cur.reverse :: splitCIAux pat fuel ((c :: rest).drop pat.length) []
    else splitCIAux pat fuel rest (c :: cur)

/-- Case-insensitive `jsSplit`. -/
def jsSplitCI (s pat : String) : List String :=
  if pat.data.isEmpty then [s]
  else (splitCIAux pat.data (s.data.length + 1) s.data []).map (fun l => ⟨l⟩)

/-- `parseValue(val)` of SQLParser: trim; quoted string (single or double
quotes, matching ends); `true`/`false`/`null` case-insensitively; then, if
`!isNaN(val)`, a number via `parseFloat` when a `.` is present else
`parseInt`; otherwise the raw token. -/
def parseValue (v : String) : Value :=
  let val := strTrim v
  let l := val.data
  if (l.head? = some sqc && l.getLast? = some sqc) ||
     (l.head? = some dqc && l.getLast? = some dqc) then
    .vStr ⟨(l.drop 1).dropLast⟩
  else if strLower val = "true" then .vBool true
  else if strLower val = "false" then .vBool false
  else if strLower val = "null" then .vNull
  else
    match strToNum val with
    | some _ => if hasDotChar val then parseFloatV (.vStr val) else parseIntV (.vStr val)
    | none => .vStr val

/-- `parseValues(valuesStr)` of SQLParser: the quote-aware character scan,
splitting at commas outside strings; a value is pushed at every such comma,
and the final chunk only when non-empty. -/
def parseValuesAux : List Char → List Char → Bool → Option Char → List Value
  | [], cur, _, _ => if cur.isEmpty then [] else [parseValue ⟨cur.reverse⟩]
  | c :: rest, cur, inString, stringChar =>
    if (c = sqc || c = dqc) && !inString then
      parseValuesAux rest (c :: cur) true (some c)
    else if some c = stringChar && inString then
      parseValuesAux rest (c :: cur) false stringChar
    else if c = ',' && !inString then
      parseValue ⟨cur.reverse⟩ :: parseValuesAux rest [] false stringChar
    else parseValuesAux rest (c :: cur) inString stringChar

/-- `parseValues` entry point. -/
def parseValues (valuesStr : String) : List Value :=
  parseValuesAux valuesStr.data [] false none

/-- `splitByComma(str)` of SQLParser: split on commas at parenthesis depth
zero; a part is pushed (trimmed) at each such comma, and the final chunk
only when non-empty.  The depth counter is a JS number and may go
negative. -/
def splitByCommaAux : List Char → Int → List Char → List String
  | [], _, cur => if cur.isEmpty then [] else [strTrim ⟨cur.reverse⟩]
  | c :: rest, depth, cur =>
    let depth1 : Int := if c = '(' then depth + 1 else depth
    let depth2 : Int := if c = ')' then depth1 - 1 else depth1
    if c = ',' && depth2 = 0 then
      strTrim ⟨cur.reverse⟩ :: splitByCommaAux rest depth2 []
    else splitByCommaAux rest depth2 (c :: cur)

/-- `splitByComma` entry point. -/
def splitByComma (s : String) : List String := splitByCommaAux s.data 0 []

/-- The fixed operator priority list of `parseSimpleCondition`. -/
def operators : List String := [">=", "<=", "!=", "=", ">", "<"]

/-- The `for (const op of operators)` loop of `parseSimpleCondition`: the
first operator (in priority order) contained in the string wins;
`split(op)` splits at every occurrence and the column/value are
`parts[0]`/`parts[1]` trimmed. -/
def findOpSplit (condStr : String) : List String → Option (String × String × String)
  | [] => none
  | op :: rest =>
    match (jsSplit condStr op).map strTrim with
    | p0 :: p1 :: _ => some (p0, op, p1)
    | _ => findOpSplit condStr rest

/-- `parseSimpleCondition(condStr)` of SQLParser. -/
def parseSimpleCondition (condStr : String) : Except String Condition :=
  match findOpSplit condStr operators with
  | some r => .ok (.cmp r.1 r.2.1 (parseValue r.2.2))
  | none => .error ("Invalid condition: " ++ condStr)

/-- Effectful map used where the source maps a throwing parser over split
parts (the first exception aborts). -/
def mapE {α β : Type} (f : α → Except String β) : List α → Except String (List β)
  | [] => .ok []
  | a :: rest => do
    let b ← f a
    let tail ← mapE f rest
    pure (b :: tail)

/-- `parseWhereClause(whereStr)` of SQLParser: a case-insensitive ` AND `
substring triggers an AND split, else ` OR ` an OR split, else one simple
condition. -/
def parseWhereClause (whereStr : String) : Except String Condition :=
  if strContains (strUpper whereStr) " AND " then do
    let conds ← mapE (fun p => parseSimpleCondition (strTrim p)) (jsSplitCI whereStr " AND ")
    pure (.condAnd conds)
  else if strContains (strUpper whereStr) " OR " then do
    let conds ← mapE (fun p => parseSimpleCondition (strTrim p)) (jsSplitCI whereStr " OR ")
    pure (.condOr conds)
  else parseSimpleCondition whereStr

/-- Collapse whitespace runs to single spaces
(`sql.trim().replace(/\s+/g, " ")` after the trim). -/
def collapseWSAux : Bool → List Char → List Char
  | _, [] => []
  | prevWS, c :: rest =>
    if isWS c then
      if prevWS then collapseWSAux true rest
      else ' ' :: collapseWSAux true rest
    else c :: collapseWSAux false rest

/-- The normalization at the top of `parse`. -/
def normalizeSQL (s : String) : String := ⟨collapseWSAux false (trimChars s.data)⟩

/-- Skip `\s*`. -/
def skipWS (l : List Char) : List Char := l.dropWhile isWS

/-- Content before the last `)` of the list, if any (the greedy `(.*)\)` of
the CREATE TABLE regex). -/
def beforeLastClose (l : List Char) : Option (List Char) :=
  match l.reverse.dropWhile (fun c => !(c = ')')) with
  | ')' :: restRev => some restRev.reverse
  | _ => none

/-- Content before the first `)`, with the remainder after it (the lazy
`(.*?)\)` groups of the INSERT regex). -/
def splitAtFirstClose (l : List Char) : Option (List Char × List Char) :=
  match l.dropWhile (fun c => !(c = ')')) with
  | ')' :: r => some (l.takeWhile (fun c => !(c = ')')), r)
  | _ => none

/-- Match of `/CREATE TABLE\s+(\w+)\s*\((.*)\)/i` at position 0 of the
normalized statement (the dispatcher has already established the leading
keyword; a match starting elsewhere would need a second `CREATE TABLE`
occurrence and is not modelled). -/
def ctMatch (l : List Char) : Option (String × String) :=
  match l.drop 12 with
  | ' ' :: r1 =>
    let w := r1.takeWhile isWordChar
    let r2 := r1.dropWhile isWordChar
    if w.isEmpty then none
    else
      match skipWS r2 with
      | '(' :: r4 =>
        match beforeLastClose r4 with
        | some content => some (⟨w⟩, ⟨content⟩)
        | none => none
      | _ => none
  | _ => none

/-- One column definition of CREATE TABLE: `name type? constraints?`, with
`PRIMARY KEY` implying NOT_NULL and setting the (single, last-wins)
primary key, `UNIQUE` appending to the unique-key list. -/
def foldColumnDef (acc : List Column × Option String × List String) (colDef : String) :
    List Column × Option String × List String :=
  let parts := jsSplit (strTrim colDef) " "
  let columnName := parts.headD ""
  let columnType := ((parts.drop 1).headD "TEXT")
  let upperDef := strUpper colDef
  let isPK := strContains upperDef "PRIMARY KEY"
  let isUnique := strContains upperDef "UNIQUE"
  let isNotNull := strContains upperDef "NOT NULL"
  let constraints :=
    (if isPK then ["PRIMARY_KEY", "NOT_NULL"] else []) ++
    (if isUnique then ["UNIQUE"] else []) ++
    (if isNotNull then ["NOT_NULL"] else [])
  (acc.1 ++ [⟨columnName, columnType, constraints⟩],
   if isPK then some columnName else acc.2.1,
   acc.2.2 ++ (if isUnique then [columnName] else []))

/-- `parseCreateTable(sql)` of SQLParser. -/
def parseCreateTable (sql : String) : Except String AST :=
  match ctMatch sql.data with
  | none => .error "Invalid CREATE TABLE syntax"
  | some (tableName, columnsStr) =>
    let folded := (splitByComma columnsStr).foldl foldColumnDef ([], none, [])
    .ok (.createTableQ tableName
      { columns := folded.1, primaryKey := folded.2.1, uniqueKeys := folded.2.2 })

/-- Match of `/INSERT INTO\s+(\w+)\s*\((.*?)\)\s*VALUES\s*\((.*?)\)/i` at
position 0: the lazy groups stop at the first `)` when the `VALUES`
section follows there (regex backtracking past a first `)` not followed by
`VALUES` is a degenerate shape that is not modelled). -/
def insMatch (l : List Char) : Option (String × String × String) :=
  match l.drop 11 with
  | ' ' :: r1 =>
    let w := r1.takeWhile isWordChar
    let r2 := r1.dropWhile isWordChar
    if w.isEmpty then none
    else
      match skipWS r2 with
      | '(' :: r4 =>
        match splitAtFirstClose r4 with
        | some (cols, r5) =>
          let r6 := skipWS r5
          if ciPrefix "VALUES" r6 then
            match skipWS (r6.drop 6) with
            | '(' :: r8 =>
              match splitAtFirstClose r8 with
              | some (vals, _) => some (⟨w⟩, ⟨cols⟩, ⟨vals⟩)
              | none => none
            | _ => none
          else none
        | none => none
      | _ => none
  | _ => none

/-- `columns.forEach((col, idx) => { row[col] = values[idx] })`: an index
past the values assigns `undefined`, observationally an absent key. -/
def buildInsertRow (cols : List String) (vals : List Value) : Row :=
  (cols.zip (vals.map some ++ List.replicate cols.length none)).foldl
    (fun acc p =>
      match p.2 with
      | some v => rowSet acc p.1 v
      | none => acc) []

/-- `parseInsert(sql)` of SQLParser. -/
def parseInsert (sql : String) : Except String AST :=
  match insMatch sql.data with
  | none => .error "Invalid INSERT syntax"
  | some (tableName, columnsStr, valuesStr) =>
    .ok (.insertQ tableName
      (buildInsertRow ((jsSplit columnsStr ",").map strTrim) (parseValues valuesStr)))

/-- First index (0-based) at which the uppercase pattern occurs
case-insensitively. -/
def findCIAux (pat : List Char) : Nat → List Char → Option Nat
  | _, [] => none
  | i, c :: rest =>
    if pat.isPrefixOf ((c :: rest).map Char.toUpper) then some i
    else findCIAux pat (i + 1) rest

/-- The `/FROM\s+(\w+)(?:\s+(\w+))?/i` match attempted at one position. -/
def fromHere (r : List Char) : Option (String × Option String) :=
  let r1 := skipWS r
  if r1.length = r.length then none
  else
    let w := r1.takeWhile isWordChar
    let r2 := r1.dropWhile isWordChar
    if w.isEmpty then none
    else
      let r3 := skipWS r2
      let aliasOpt :=
        if r3.length < r2.length then
          let w2 := r3.takeWhile isWordChar
          if w2.isEmpty then none else some (⟨w2⟩ : String)
        else none
      some (⟨w⟩, aliasOpt)

/-- The unanchored `fromMatch` search. -/
def fromMatchAux : List Char → Option (String × Option String)
  | [] => none
  | c :: rest =>
    match (if ciPrefix "FROM" (c :: rest) then fromHere ((c :: rest).drop 4) else none) with
    | some res => some res
    | none => fromMatchAux rest

/-- On-clause text `(.*?)(?:\s+WHERE|$)`: everything up to the first
case-insensitive ` WHERE`, or the whole remainder. -/
def untilWhere (l : List Char) : List Char :=
  match findCIAux " WHERE".data 0 l with
  | some p => l.take p
  | none => l

/-- The `ON\s+` tail of the JOIN regex attempted after table/alias. -/
def joinOnTail (r : List Char) : Option String :=
  let r1 := skipWS r
  if r1.length < r.length && ciPrefix "ON" r1 then
    let r2 := r1.drop 2
    let r3 := skipWS r2
    if r3.length < r2.length then some (strTrim ⟨untilWhere r3⟩) else none
  else none

/-- The `/JOIN\s+(\w+)(?:\s+(\w+))?\s+ON\s+(.*?)(?:\s+WHERE|$)/i` match
attempted at one position: the greedy optional alias group is taken when
the `ON` keyword still follows it, else dropped (regex backtracking). -/
def joinHere (r : List Char) : Option JoinClause :=
  let r1 := skipWS r
  if r1.length = r.length then none
  else
    let w := r1.takeWhile isWordChar
    let r2 := r1.dropWhile isWordChar
    if w.isEmpty then none
    else
      let withAlias :=
        let r3 := skipWS r2
        if r3.length < r2.length then
          let a := r3.takeWhile isWordChar
          let r4 := r3.dropWhile isWordChar
          if a.isEmpty then none
          else
            match joinOnTail r4 with
            | some onText => some { tableName := ⟨w⟩, tableAlias := some ⟨a⟩, onText := onText }
            | none => none
        else none
      match withAlias with
      | some j => some j
      | none =>
        match joinOnTail r2 with
        | some onText => some { tableName := ⟨w⟩, tableAlias := none, onText := onText }
        | none => none

/-- The unanchored `joinMatch` search. -/
def joinMatchAux : List Char → Option JoinClause
  | [] => none
  | c :: rest =>
    match (if ciPrefix "JOIN" (c :: rest) then joinHere ((c :: rest).drop 4) else none) with
    | some res => some res
    | none => joinMatchAux rest

/-- The `/WHERE\s+(.+?)$/i` search: the first `WHERE` keyword followed by
whitespace and a non-empty remainder, which is captured whole. -/
def whereMatchAux : List Char → Option String
  | [] => none
  | c :: rest =>
    match
      (if ciPrefix "WHERE" (c :: rest) then
        let r := (c :: rest).drop 5
        let r1 := skipWS r
        if r1.length < r.length && !r1.isEmpty then some (⟨r1⟩ : String) else none
      else none) with
    | some res => some res
    | none => whereMatchAux rest

/-- `parseSelect(sql)` of SQLParser: extract the column list (lazy up to
the first ` FROM`), the FROM table and optional alias, an optional single
JOIN clause, and an optional WHERE clause parsed into a condition tree. -/
def parseSelect (sql : String) : Except String AST := do
  let l := sql.data
  let afterSel := l.drop 7
  if !ciPrefix "SELECT " l then throw "Invalid SELECT syntax"
  match findCIAux " FROM".data 0 afterSel with
  | none => throw "Invalid SELECT syntax"
  | some p =>
    let columnsStr := strTrim ⟨afterSel.take p⟩
    let columns :=
      if columnsStr = "*" then ["*"]
      else (jsSplit columnsStr ",").map strTrim
    match fromMatchAux l with
    | none => throw "Invalid FROM clause"
    | some (tableName, tableAlias) =>
      let join := joinMatchAux l
      let whereC ←
        match whereMatchAux l with
        | some wstr => (parseWhereClause (strTrim wstr)).map some
        | none => pure none
      pure (.selectQ
        { columns := columns, tableName := tableName, tableAlias := tableAlias,
          join := join, whereC := whereC })

/-- Split at the first `\s+WHERE\s+(.+)` occurrence (the lazy
`(.*?)(?:\s+WHERE\s+(.+))?$` of the UPDATE regex): the part before, and
the captured non-empty remainder when present. -/
def splitSetWhere : List Char → List Char × Option (List Char)
  | [] => ([], none)
  | c :: rest =>
    match
      (let r1 := skipWS (c :: rest)
       if r1.length < (c :: rest).length && ciPrefix "WHERE" r1 then
         let r2 := r1.drop 5
         let r3 := skipWS r2
         if r3.length < r2.length && !r3.isEmpty then some r3 else none
       else none) with
    | some w => ([], some w)
    | none =>
      let t := splitSetWhere rest
      (c :: t.1, t.2)

/-- The SET clause: comma-split `column = literal` pairs; a pair without
`=` makes the source read `.trim` of `undefined`, a TypeError. -/
def parseSetClause (setClause : String) : Except String Row :=
  (jsSplit setClause ",").foldlM
    (fun acc pair =>
      match (jsSplit pair "=").map strTrim with
      | col :: val :: _ => pure (rowSet acc col (parseValue val))
      | _ => .error "TypeError: Cannot read properties of undefined (reading trim)")
    []

/-- `parseUpdate(sql)` of SQLParser. -/
def parseUpdate (sql : String) : Except String AST := do
  let l := sql.data
  match l.drop 6 with
  | ' ' :: r1 =>
    let w := r1.takeWhile isWordChar
    let r2 := r1.dropWhile isWordChar
    if w.isEmpty then throw "Invalid UPDATE syntax"
    else
      let r3 := skipWS r2
      if r3.length < r2.length && ciPrefix "SET" r3 then
        let r4 := r3.drop 3
        let r5 := skipWS r4
        if r5.length < r4.length then
          let sw := splitSetWhere r5
          let updates ← parseSetClause ⟨sw.1⟩
          let whereC ←
            match sw.2 with
            | some wl => (parseWhereClause ⟨wl⟩).map some
            | none => pure none
          pure (.updateQ ⟨w⟩ updates whereC)
        else throw "Invalid UPDATE syntax"
      else throw "Invalid UPDATE syntax"
  | _ => throw "Invalid UPDATE syntax"

/-- `parseDelete(sql)` of SQLParser
(`/DELETE FROM\s+(\w+)(?:\s+WHERE\s+(.+))?$/i`). -/
def parseDelete (sql : String) : Except String AST := do
  let l := sql.data
  match l.drop 11 with
  | ' ' :: r1 =>
    let w := r1.takeWhile isWordChar
    let r2 := r1.dropWhile isWordChar
    if w.isEmpty then throw "Invalid DELETE syntax"
    else
      match r2 with
      | [] => pure (.deleteQ ⟨w⟩ none)
      | _ =>
        let r3 := skipWS r2
        if r3.length < r2.length && ciPrefix "WHERE" r3 then
          let r4 := r3.drop 5
          let r5 := skipWS r4
          if r5.length < r4.length && !r5.isEmpty then do
            let whereC ← parseWhereClause ⟨r5⟩
            pure (.deleteQ ⟨w⟩ (some whereC))
          else throw "Invalid DELETE syntax"
        else throw "Invalid DELETE syntax"
  | _ => throw "Invalid DELETE syntax"

/-- `parseDropTable(sql)` of SQLParser. -/
def parseDropTable (sql : String) : Except String AST :=
  match sql.data.drop 10 with
  | ' ' :: r1 =>
    let w := r1.takeWhile isWordChar
    if w.isEmpty then .error "Invalid DROP TABLE syntax"
    else .ok (.dropTableQ ⟨w⟩)
  | _ => .error "Invalid DROP TABLE syntax"

/-- `parse(sql)` of SQLParser: normalize whitespace, dispatch on the
case-insensitive leading keyword, else fail as unsupported. -/
def parse (sqlRaw : String) : Except String AST :=
  let sql := normalizeSQL sqlRaw
  let upperSQL := strUpper sql
  if strStartsWith upperSQL "CREATE TABLE" then parseCreateTable sql
  else if strStartsWith upperSQL "INSERT INTO" then parseInsert sql
  else if strStartsWith upperSQL "SELECT" then parseSelect sql
  else if strStartsWith upperSQL "UPDATE" then parseUpdate sql
  else if strStartsWith upperSQL "DELETE FROM" then parseDelete sql
  else if strStartsWith upperSQL "DROP TABLE" then parseDropTable sql
  else .error ("Unsupported SQL command: " ++ (⟨sql.data.take 20⟩ : String) ++ "...")

/-- `parse` then `execute`, the body of the `try` block of
`Database.query`. -/
def parseExec (db : DBState) (sql : String) : Except String (ExecResult × DBState) := do
  let parsedQuery ← parse sql
  execute db parsedQuery

/-- `Database.query(sql)`: the single try/catch boundary — a thrown error
from parsing or execution becomes `{success: false, error: message}`, an
ok result is returned as-is (paired here with the resulting storage
state). -/
def query (db : DBState) (sql : String) : ExecResult × DBState :=
  match parseExec db sql with
  | .ok r => r
  | .error e => ({ success := false, error := some e }, db)

/-- The row values that an index entry for probe value `v` collects:
present, non-null, and SameValueZero-equal to `v`. -/
def idxMatch (x : Option Value) (v : Value) : Bool :=
  match x with
  | none => false
  | some .vNull => false
  | some w => svzV w v

/-- Specification of the position list an index lookup returns: the
0-based positions (counted from `i`) of the rows whose column value
index-matches `v`, in order. -/
def matchPositions (col : String) (v : Value) : Nat → List Row → List Nat
  | _, [] => []
  | i, r :: rest =>
    (if idxMatch (rowGet r col) v then [i] else []) ++ matchPositions col v (i + 1) rest

/-- The effective row condition of `executeUpdate`/`executeDelete`: the
condition evaluator over the parsed WHERE clause, or constantly true
when WHERE is absent. -/
def whereEval (whereC : Option Condition) (r : Row) : Except String Bool :=
  match whereC with
  | none => pure true
  | some c => evaluateCondition r c

/-- Lookup into the index store by (table, column) key. -/
def findIdx (idxs : List ((String × String) × IndexMap)) (key : String × String) :
    Option IndexMap :=
  match idxs.find? (fun p => p.1 = key) with
  | some p => some p.2
  | none => none

/-- Which result fields each statement kind populates on success: SELECT
fills `rows` and `count`; UPDATE/DELETE fill `message` and `count`;
INSERT, CREATE TABLE and DROP TABLE fill `message` only. -/
def resultShape (a : AST) (r : ExecResult) : Prop :=
  match a with
  | .selectQ _ => r.rows.isSome ∧ r.count.isSome ∧ r.message = none
  | .updateQ _ _ _ => r.message.isSome ∧ r.count.isSome ∧ r.rows = none
  | .deleteQ _ _ => r.message.isSome ∧ r.count.isSome ∧ r.rows = none
  | .insertQ _ _ => r.message.isSome ∧ r.rows = none ∧ r.count = none
  | .createTableQ _ _ => r.message.isSome ∧ r.rows = none ∧ r.count = none
  | .dropTableQ _ => r.message.isSome ∧ r.rows = none ∧ r.count = none

/-- users table schema of the C2 scenario. -/
def c2UsersMeta : Metadata :=
  { columns := [⟨"id", "INTEGER", ["PRIMARY_KEY", "NOT_NULL"]⟩, ⟨"name", "TEXT", []⟩],
    primaryKey := some "id", uniqueKeys := [] }

/-- orders table schema of the C2 scenario. -/
def c2OrdersMeta : Metadata :=
  { columns := [⟨"order_id", "INTEGER", ["PRIMARY_KEY", "NOT_NULL"]⟩,
                ⟨"user_id", "INTEGER", []⟩, ⟨"product", "TEXT", []⟩],
    primaryKey := some "order_id", uniqueKeys := [] }

/-- Database state of the C2 scenario: one user, one matching order with
product `X`. -/
def c2DB : DBState :=
  { tables :=
      [("users", c2UsersMeta, [[("id", .vNum 1), ("name", .vStr "Alice")]]),
       ("orders", c2OrdersMeta,
        [[("order_id", .vNum 101), ("user_id", .vNum 1), ("product", .vStr "X")]])],
    indexes :=
      [(("users", "id"), buildIndex "id" [[("id", .vNum 1), ("name", .vStr "Alice")]]),
       (("orders", "order_id"),
        buildIndex "order_id"
          [[("order_id", .vNum 101), ("user_id", .vNum 1), ("product", .vStr "X")]])] }

/-- The C2 query: a JOIN whose WHERE names a qualified column and excludes
the only merged row. -/
def c2SQL : String :=
  "SELECT * FROM users u JOIN orders o ON u.id = o.user_id WHERE orders.product = " ++
    sqS ++ "Y" ++ sqS

/-- The merged row of the C2 join (product `X`, which fails the WHERE). -/
def c2JoinedRow : Row :=
  [("users.id", .vNum 1), ("users.name", .vStr "Alice"), ("orders.order_id", .vNum 101),
   ("orders.user_id", .vNum 1), ("orders.product", .vStr "X")]

/-- Schema of the C3 counterexample: integer primary key plus an integer
payload column. -/
def c3Meta : Metadata :=
  { columns := [⟨"id", "INTEGER", ["PRIMARY_KEY", "NOT_NULL"]⟩, ⟨"n", "INTEGER", []⟩],
    primaryKey := some "id", uniqueKeys := [] }

/-- Schema of the C4 counterexample: a primary key of free-form declared
type, so that a NaN key value passes the type check. -/
def c4Meta : Metadata :=
  { columns := [⟨"id", "ANY", ["PRIMARY_KEY", "NOT_NULL"]⟩],
    primaryKey := some "id", uniqueKeys := [] }

/-- State of the C4 counterexample after two successful inserts of NaN
primary-key rows (the index groups both under the single NaN key). -/
def c4DB : DBState :=
  { tables := [("t", c4Meta, [[("id", .vNaN)], [("id", .vNaN)]])],
    indexes := [(("t", "id"), buildIndex "id" [[("id", .vNaN)], [("id", .vNaN)]])] }

/-- Fresh table state for the C4 witness (the state `CREATE TABLE` leaves
for a table `t` with integer primary key `id`). -/
def c4wMeta : Metadata :=
  { columns := [⟨"id", "INTEGER", ["PRIMARY_KEY", "NOT_NULL"]⟩], primaryKey := some "id",
    uniqueKeys := [] }

/-- Empty-table state of the C4 witness. -/
def c4wDB0 : DBState :=
  { tables := [("t", c4wMeta, [])], indexes := [(("t", "id"), [])] }

/-- State after the C4 witness insert of `{id: 7}`. -/
def c4wDB1 : DBState :=
  { tables := [("t", c4wMeta, [[("id", .vNum 7)]])],
    indexes := [(("t", "id"), [(.vNum 7, [0])])] }

/-- Empty database for the SQL-level C4 counterexample session. -/
def c4s0 : DBState := ⟨[], []⟩

/-- C4 counterexample session state after
`CREATE TABLE t2 (id BLOB PRIMARY KEY)` (a free-form declared type, so the
type check accepts any value). -/
def c4s1 : DBState := (query c4s0 "CREATE TABLE t2 (id BLOB PRIMARY KEY)").2

/-- ... after the first `INSERT INTO t2 (id) VALUES (,)` — the empty value
chunk before the comma parses to `parseInt("") = NaN`. -/
def c4s2 : DBState := (query c4s1 "INSERT INTO t2 (id) VALUES (,)").2

/-- ... after the second, equally successful, NaN-keyed insert
(`NaN === NaN` is false in the duplicate scan). -/
def c4s3 : DBState := (query c4s2 "INSERT INTO t2 (id) VALUES (,)").2

/-- State of the C6 counterexample: one empty table. -/
def c6DB : DBState :=
  { tables := [("t", { columns := [⟨"id", "INTEGER", []⟩], primaryKey := none, uniqueKeys := [] }, [])],
    indexes := [] }

/-- A SELECT over the empty C6 table. -/
def c6Sel : AST :=
  .selectQ { columns := ["*"], tableName := "t", tableAlias := none, join := none, whereC := none }

/-- Schema of the C9 witness: `name` declared NOT NULL. -/
def c9Meta : Metadata :=
  { columns := [⟨"id", "INTEGER", ["PRIMARY_KEY", "NOT_NULL"]⟩, ⟨"name", "TEXT", ["NOT_NULL"]⟩],
    primaryKey := some "id", uniqueKeys := [] }

/-- State of the C9 witness: one row with a non-null name. -/
def c9DB : DBState :=
  { tables := [("t", c9Meta, [[("id", .vNum 1), ("name", .vStr "Alice")]])],
    indexes := [(("t", "id"), buildIndex "id" [[("id", .vNum 1), ("name", .vStr "Alice")]])] }

/-- Schema of the C10 witness: a UNIQUE (nullable) email column. -/
def c10Meta : Metadata :=
  { columns := [⟨"id", "INTEGER", ["PRIMARY_KEY", "NOT_NULL"]⟩, ⟨"email", "TEXT", ["UNIQUE"]⟩],
    primaryKey := some "id", uniqueKeys := ["email"] }

/-! ## Helper lemmas -/

lemma bind_ok_iff {α β : Type} {x : Except String α} {f : α → Except String β} {b : β} :
    (x >>= f) = .ok b ↔ ∃ a, x = .ok a ∧ f a = .ok b := by
  cases x with
  | ok a => simp [Bind.bind, Except.bind]
  | error e => simp [Bind.bind, Except.bind]

lemma strictEqV_symm (a b : Value) : strictEqV a b = strictEqV b a := by
  cases a <;> cases b <;> simp [strictEqV] <;> exact eq_comm

lemma svzV_symm (a b : Value) : svzV a b = svzV b a := by
  cases a <;> cases b <;> simp [svzV, strictEqV] <;> exact eq_comm

lemma svzV_trans {a b c : Value} (h1 : svzV a b = true) (h2 : svzV b c = true) :
    svzV a c = true := by
  cases a <;> cases b <;> cases c <;> simp_all [svzV, strictEqV]

lemma strictEqV_refl_of_ne_nan {v : Value} (h : v ≠ .vNaN) : strictEqV v v = true := by
  cases v <;> simp_all [strictEqV]

lemma svzV_eq_strictEqV_of_ne_nan {v : Value} (h : v ≠ .vNaN) (w : Value) :
    svzV w v = strictEqV w v := by
  cases w <;> cases v <;> simp_all [svzV, strictEqV]

lemma findOpSplit_cons (s op : String) (rest : List String) :
    findOpSplit s (op :: rest) =
      if strContains s op then
        some (((jsSplit s op).map strTrim).headD "", op,
              (((jsSplit s op).map strTrim).drop 1).headD "")
      else findOpSplit s rest := by
  have hstep : findOpSplit s (op :: rest) =
      (match (jsSplit s op).map strTrim with
       | p0 :: p1 :: _ => some (p0, op, p1)
       | _ => findOpSplit s rest) := rfl
  rw [hstep]
  rcases hm : (jsSplit s op).map strTrim with _ | ⟨p0, tl⟩
  · have hl := congrArg List.length hm
    rw [List.length_map] at hl
    simp [strContains, hl]
  · rcases tl with _ | ⟨p1, tl'⟩
    · have hl := congrArg List.length hm
      rw [List.length_map] at hl
      simp [strContains, hl]
    · have hl := congrArg List.length hm
      rw [List.length_map] at hl
      simp [strContains, hl, hm]

lemma findOpSplit_some_spec (s : String) : ∀ ops : List String, ∀ c o v',
    findOpSplit s ops = some (c, o, v') →
      ops.find? (fun op => strContains s op) = some o ∧
      c = ((jsSplit s o).map strTrim).headD "" ∧
      v' = (((jsSplit s o).map strTrim).drop 1).headD "" := by
  intro ops
  induction ops with
  | nil => intro c o v' h; simp [findOpSplit] at h
  | cons op rest ih =>
    intro c o v' h
    rw [findOpSplit_cons] at h
    by_cases hc : strContains s op = true
    · rw [if_pos hc] at h
      simp only [Option.some.injEq, Prod.mk.injEq] at h
      obtain ⟨h1, h2, h3⟩ := h
      subst h2
      refine ⟨?_, h1.symm, h3.symm⟩
      rw [List.find?_cons_of_pos _ hc]
    · rw [if_neg (by simpa using hc)] at h
      obtain ⟨hf, hc', hv'⟩ := ih c o v' h
      refine ⟨?_, hc', hv'⟩
      rw [List.find?_cons_of_neg _ (by simpa using hc), hf]

lemma findOpSplit_none_iff (s : String) : ∀ ops : List String,
    findOpSplit s ops = none ↔ ∀ op ∈ ops, strContains s op = false := by
  intro ops
  induction ops with
  | nil => simp [findOpSplit]
  | cons op rest ih =>
    rw [findOpSplit_cons]
    by_cases hc : strContains s op = true
    · simp [hc]
    · simp only [Bool.not_eq_true] at hc
      simp [hc, ih]

/-- C7: `parseSimpleCondition` scans the operator list in the fixed
priority order `>=, <=, !=, =, >, <` and splits on the first operator (in
that order) the condition contains: the produced operator is exactly the
first contained one, the column is the trimmed text before its first
occurrence (`parts[0]`) and the value is parsed from `parts[1]`; hence a
condition containing `>=`, `<=` or `!=` never parses with operator `=`,
and a condition containing none of the six operators is a syntax error, so
parsing fails and nothing executes. -/
theorem C7_operator_priority (s : String) :
    (∀ col op v, parseSimpleCondition s = .ok (.cmp col op v) →
      operators.find? (fun o => strContains s o) = some op ∧
      col = ((jsSplit s op).map strTrim).headD "" ∧
      v = parseValue ((((jsSplit s op).map strTrim).drop 1).headD "")) ∧
    ((strContains s ">=" || strContains s "<=" || strContains s "!=") = true →
      ∀ col op v, parseSimpleCondition s = .ok (.cmp col op v) → op ≠ "=") ∧
    ((∀ op ∈ operators, strContains s op = false) →
      parseSimpleCondition s = .error ("Invalid condition: " ++ s)) := by
  have hok : ∀ col op v, parseSimpleCondition s = .ok (.cmp col op v) →
      findOpSplit s operators = some (col, op,
        (((jsSplit s op).map strTrim).drop 1).headD "") ∧
      operators.find? (fun o => strContains s o) = some op ∧
      col = ((jsSplit s op).map strTrim).headD "" ∧
      v = parseValue ((((jsSplit s op).map strTrim).drop 1).headD "") := by
    intro col op v h
    unfold parseSimpleCondition at h
    rcases hf : findOpSplit s operators with _ | ⟨c, o, v'⟩
    · rw [hf] at h; simp at h
    · rw [hf] at h
      simp only [Except.ok.injEq, Condition.cmp.injEq] at h
      obtain ⟨h1, h2, h3⟩ := h
      obtain ⟨hfind, hc, hv⟩ := findOpSplit_some_spec s operators c o v' hf
      refine ⟨?_, ?_, ?_, ?_⟩
      · rw [← h1, ← h2, ← hv]
      · rw [← h2]; exact hfind
      · rw [← h1, ← h2]; exact hc
      · rw [← h3, ← h2, ← hv]
  refine ⟨fun col op v h => ((hok col op v h).2), ?_, ?_⟩
  · intro hcont col op v h rfl_op
    subst rfl_op
    have hfind := (hok col "=" v h).2.1
    rcases Bool.or_eq_true_iff.1 hcont with hcont' | hc3
    · rcases Bool.or_eq_true_iff.1 hcont' with h1 | h2
      · rw [show operators = [">=", "<=", "!=", "=", ">", "<"] from rfl] at hfind
        rw [List.find?_cons_of_pos _ h1] at hfind
        simp at hfind
      · rw [show operators = [">=", "<=", "!=", "=", ">", "<"] from rfl] at hfind
        rcases hge : strContains s ">=" with _ | _
        · rw [List.find?_cons_of_neg _ (by simp [hge]), List.find?_cons_of_pos _ h2] at hfind
          simp at hfind
        · rw [List.find?_cons_of_pos _ hge] at hfind
          simp at hfind
    · rw [show operators = [">=", "<=", "!=", "=", ">", "<"] from rfl] at hfind
      rcases hge : strContains s ">=" with _ | _
      · rcases hle : strContains s "<=" with _ | _
        · rw [List.find?_cons_of_neg _ (by simp [hge]), List.find?_cons_of_neg _ (by simp [hle]),
            List.find?_cons_of_pos _ hc3] at hfind
          simp at hfind
        · rw [List.find?_cons_of_neg _ (by simp [hge]), List.find?_cons_of_pos _ hle] at hfind
          simp at hfind
      · rw [List.find?_cons_of_pos _ hge] at hfind
        simp at hfind
  · intro hnone
    unfold parseSimpleCondition
    rw [(findOpSplit_none_iff s operators).2 hnone]

theorem C7_operator_priority_witness :
    (operators.find? (fun o => strContains "price >= 10" o) = some ">=" ∧
     "price" = ((jsSplit "price >= 10" ">=").map strTrim).headD "" ∧
     Value.vNum 10 = parseValue ((((jsSplit "price >= 10" ">=").map strTrim).drop 1).headD "")) ∧
    (">=" : String) ≠ "=" ∧
    parseSimpleCondition "foobar" = .error ("Invalid condition: " ++ "foobar") :=
  ⟨(C7_operator_priority "price >= 10").1 "price" ">=" (.vNum 10) (by rfl),
   (C7_operator_priority "price >= 10").2.1 (by decide) "price" ">=" (.vNum 10) (by rfl),
   (C7_operator_priority "foobar").2.2 (by decide)⟩

/-- C8 counterexample: two successive rebuilds over the unchanged row
sequence persist different bytes, because the persisted record embeds the
`new Date().toISOString()` timestamp of each call. -/
theorem C8_rebuild_not_bit_identical :
    rebuildIndexFile "t" "c" [[("c", .vNum 1)]] "2026-01-01T00:00:00.000Z" ≠
      rebuildIndexFile "t" "c" [[("c", .vNum 1)]] "2026-01-01T00:00:01.000Z" := by
  decide

/-- C8 (amended): rebuilding the index twice over an unchanged row
sequence produces identical index *entries* (the value-to-positions map is
a deterministic function of the rows); the persisted records differ at
most in the `createdAt` timestamp, so they are byte-identical exactly when
the two calls observe the same clock string. -/
theorem C8_rebuild_idempotent_entries (t c : String) (rows : List Row) (now1 now2 : String) :
    (rebuildIndexFile t c rows now1).entries = (rebuildIndexFile t c rows now2).entries ∧
    rebuildIndexFile t c rows now1 = { rebuildIndexFile t c rows now2 with createdAt := now1 } :=
  ⟨rfl, rfl⟩

/-- C2: the code ignores the WHERE clause on joins.  The parser does
attach the qualified-column condition to the AST, the join returns its one
merged row (product `X`), that row fails the WHERE condition under the
executor's own evaluator — and is returned anyway.  The claim (and spec),
by which merged rows failing the condition are excluded, is violated at
this input. -/
theorem C2_join_where_ignored :
    parse c2SQL = .ok (.selectQ
      { columns := ["*"], tableName := "users", tableAlias := some "u",
        join := some { tableName := "orders", tableAlias := some "o",
                       onText := "u.id = o.user_id" },
        whereC := some (.cmp "orders.product" "=" (.vStr "Y")) }) ∧
    (query c2DB c2SQL).1 =
      { success := true, rows := some [some c2JoinedRow], count := some 1 } ∧
    evaluateCondition c2JoinedRow (.cmp "orders.product" "=" (.vStr "Y")) = .ok false := by
  refine ⟨by rfl, by decide, by decide⟩

lemma executeCreateTable_fields {db : DBState} {t : String} {schema : Metadata}
    {r : ExecResult} {db' : DBState} (h : executeCreateTable db t schema = .ok (r, db')) :
    r.success = true ∧ r.error = none ∧ r.message.isSome ∧ r.rows = none ∧ r.count = none := by
  unfold executeCreateTable at h
  split at h
  · simp at h
  · simp only [Except.ok.injEq, Prod.mk.injEq] at h
    obtain ⟨h1, _⟩ := h
    subst h1
    simp

lemma executeInsert_fields {db : DBState} {t : String} {row : Row}
    {r : ExecResult} {db' : DBState} (h : executeInsert db t row = .ok (r, db')) :
    r.success = true ∧ r.error = none ∧ r.message.isSome ∧ r.rows = none ∧ r.count = none := by
  unfold executeInsert at h
  rw [bind_ok_iff] at h; obtain ⟨td, _, h⟩ := h
  rw [bind_ok_iff] at h; obtain ⟨ins, _, h⟩ := h
  rw [bind_ok_iff] at h; obtain ⟨db2, _, h⟩ := h
  simp only [pure, Except.pure, Except.ok.injEq, Prod.mk.injEq] at h
  obtain ⟨h1, _⟩ := h
  subst h1
  simp

lemma executeJoin_fields {db : DBState} {q : SelectQuery} {j : JoinClause}
    {r : ExecResult} {db' : DBState} (h : executeJoin db q j = .ok (r, db')) :
    r.success = true ∧ r.error = none ∧ r.rows.isSome ∧ r.count.isSome ∧ r.message = none := by
  unfold executeJoin at h
  rw [bind_ok_iff] at h; obtain ⟨lt, _, h⟩ := h
  rw [bind_ok_iff] at h; obtain ⟨rt, _, h⟩ := h
  split at h
  · simp at h
  · simp only [pure, Except.pure, Except.ok.injEq, Prod.mk.injEq] at h
    obtain ⟨h1, _⟩ := h
    subst h1
    simp

lemma executeSelect_fields {db : DBState} {q : SelectQuery}
    {r : ExecResult} {db' : DBState} (h : executeSelect db q = .ok (r, db')) :
    r.success = true ∧ r.error = none ∧ r.rows.isSome ∧ r.count.isSome ∧ r.message = none := by
  unfold executeSelect at h
  split at h
  · exact executeJoin_fields h
  · rw [bind_ok_iff] at h; obtain ⟨td, _, h⟩ := h
    rw [bind_ok_iff] at h; obtain ⟨rows, _, h⟩ := h
    rw [bind_ok_iff] at h; obtain ⟨projected, _, h⟩ := h
    simp only [pure, Except.pure, Except.ok.injEq, Prod.mk.injEq] at h
    obtain ⟨h1, _⟩ := h
    subst h1
    simp

lemma executeUpdate_fields {db : DBState} {t : String} {updates : Row}
    {w : Option Condition} {r : ExecResult} {db' : DBState}
    (h : executeUpdate db t updates w = .ok (r, db')) :
    r.success = true ∧ r.error = none ∧ r.message.isSome ∧ r.count.isSome ∧ r.rows = none := by
  unfold executeUpdate at h
  rw [bind_ok_iff] at h; obtain ⟨td, _, h⟩ := h
  rw [bind_ok_iff] at h; obtain ⟨res, _, h⟩ := h
  rw [bind_ok_iff] at h; obtain ⟨db2, _, h⟩ := h
  simp only [pure, Except.pure, Except.ok.injEq, Prod.mk.injEq] at h
  obtain ⟨h1, _⟩ := h
  subst h1
  simp

lemma executeDelete_fields {db : DBState} {t : String}
    {w : Option Condition} {r : ExecResult} {db' : DBState}
    (h : executeDelete db t w = .ok (r, db')) :
    r.success = true ∧ r.error = none ∧ r.message.isSome ∧ r.count.isSome ∧ r.rows = none := by
  unfold executeDelete at h
  rw [bind_ok_iff] at h; obtain ⟨td, _, h⟩ := h
  rw [bind_ok_iff] at h; obtain ⟨res, _, h⟩ := h
  rw [bind_ok_iff] at h; obtain ⟨db2, _, h⟩ := h
  simp only [pure, Except.pure, Except.ok.injEq, Prod.mk.injEq] at h
  obtain ⟨h1, _⟩ := h
  subst h1
  simp

lemma executeDropTable_fields {db : DBState} {t : String}
    {r : ExecResult} {db' : DBState} (h : executeDropTable db t = .ok (r, db')) :
    r.success = true ∧ r.error = none ∧ r.message.isSome ∧ r.rows = none ∧ r.count = none := by
  unfold executeDropTable at h
  rw [bind_ok_iff] at h; obtain ⟨td, _, h⟩ := h
  simp only [pure, Except.pure, Except.ok.injEq, Prod.mk.injEq] at h
  obtain ⟨h1, _⟩ := h
  subst h1
  simp

lemma execute_ok_fields {db : DBState} {a : AST} {r : ExecResult} {db' : DBState}
    (h : execute db a = .ok (r, db')) :
    r.success = true ∧ r.error = none ∧ resultShape a r := by
  cases a with
  | createTableQ t schema =>
    obtain ⟨h1, h2, h3, h4, h5⟩ := executeCreateTable_fields h
    exact ⟨h1, h2, h3, h4, h5⟩
  | insertQ t row =>
    obtain ⟨h1, h2, h3, h4, h5⟩ := executeInsert_fields h
    exact ⟨h1, h2, h3, h4, h5⟩
  | selectQ q =>
    obtain ⟨h1, h2, h3, h4, h5⟩ := executeSelect_fields h
    exact ⟨h1, h2, h3, h4, h5⟩
  | updateQ t u w =>
    obtain ⟨h1, h2, h3, h4, h5⟩ := executeUpdate_fields h
    exact ⟨h1, h2, h3, h4, h5⟩
  | deleteQ t w =>
    obtain ⟨h1, h2, h3, h4, h5⟩ := executeDelete_fields h
    exact ⟨h1, h2, h3, h4, h5⟩
  | dropTableQ t =>
    obtain ⟨h1, h2, h3, h4, h5⟩ := executeDropTable_fields h
    exact ⟨h1, h2, h3, h4, h5⟩

/-- C5: for every database state and input string, `query` returns a
result record and never lets an error escape its boundary: when parsing or
execution throws, the returned record is `{success: false, error:
message}` (state unchanged); when nothing throws, the executor's record is
returned as-is, and every executor record carries `success: true` (and no
`error` field). -/
theorem C5_query_never_raises (db : DBState) (sql : String) :
    (∃ m, parseExec db sql = .error m ∧
      query db sql = ({ success := false, error := some m }, db)) ∨
    (∃ r db', parseExec db sql = .ok (r, db') ∧ query db sql = (r, db') ∧
      r.success = true ∧ r.error = none) := by
  cases hp : parseExec db sql with
  | error m =>
    left
    exact ⟨m, rfl, by simp [query, hp]⟩
  | ok p =>
    right
    obtain ⟨r, db'⟩ := p
    refine ⟨r, db', rfl, by simp [query, hp], ?_, ?_⟩
    · unfold parseExec at hp
      rw [bind_ok_iff] at hp
      obtain ⟨ast, _, hexec⟩ := hp
      exact (execute_ok_fields hexec).1
    · unfold parseExec at hp
      rw [bind_ok_iff] at hp
      obtain ⟨ast, _, hexec⟩ := hp
      exact (execute_ok_fields hexec).2.1

/-- C6 counterexample: a successful `SELECT * FROM t` populates both
`rows` and `count` in the same result, so "exactly one of rows / count /
message is populated" fails as stated. -/
theorem C6_select_two_fields :
    (query c6DB "SELECT * FROM t").1.success = true ∧
    ((query c6DB "SELECT * FROM t").1.rows).isSome = true ∧
    ((query c6DB "SELECT * FROM t").1.count).isSome = true := by
  decide

/-- C6 (amended): the populated result fields are a function of the
statement kind, but not one field apiece: every successful SELECT fills
`rows` and `count` (no message), every successful UPDATE/DELETE fills
`message` and `count` (no rows), and every successful INSERT / CREATE
TABLE / DROP TABLE fills `message` only (no rows, no count); `rows` and
`message` are never both populated. -/
theorem C6_result_field_shape {db : DBState} {a : AST} {r : ExecResult} {db' : DBState}
    (h : execute db a = .ok (r, db')) : r.success = true ∧ resultShape a r :=
  ⟨(execute_ok_fields h).1, (execute_ok_fields h).2.2⟩

theorem C6_result_field_shape_witness :
    ({ success := true, rows := some [], count := some 0 } : ExecResult).success = true ∧
    resultShape c6Sel { success := true, rows := some [], count := some 0 } :=
  @C6_result_field_shape c6DB c6Sel
    { success := true, rows := some [], count := some 0 } c6DB (by decide)

lemma idxLookup_idxInsert (idx : IndexMap) (k : Value) (i : Nat) (v : Value) :
    idxLookup (idxInsert idx k i) v =
      idxLookup idx v ++ (if svzV k v then [i] else []) := by
  induction idx with
  | nil =>
    by_cases h : svzV k v = true
    · simp [idxInsert, idxLookup, h]
    · simp [idxInsert, idxLookup, h]
  | cons e rest ih =>
    obtain ⟨k', ps⟩ := e
    by_cases h1 : svzV k' k = true
    · by_cases h2 : svzV k' v = true
      · have h3 : svzV k v = true := svzV_trans (svzV_symm k k' ▸ h1) h2
        simp [idxInsert, idxLookup, h1, h2, h3]
      · have h3 : svzV k v = false := by
          by_contra hc
          simp only [Bool.not_eq_false] at hc
          exact absurd (svzV_trans h1 hc) (by simpa using h2)
        simp [idxInsert, idxLookup, h1, h2, h3]
    · by_cases h2 : svzV k' v = true
      · have h3 : svzV k v = false := by
          by_contra hc
          simp only [Bool.not_eq_false] at hc
          exact absurd (svzV_trans h2 (svzV_symm v k ▸ hc)) (by simpa using h1)
        simp [idxInsert, idxLookup, h1, h2, h3]
      · simp [idxInsert, idxLookup, h1, h2, ih]

lemma idxLookup_buildIndexFrom (col : String) (v : Value) :
    ∀ (rows : List Row) (i : Nat) (idx : IndexMap),
      idxLookup (buildIndexFrom col i rows idx) v =
        idxLookup idx v ++ matchPositions col v i rows := by
  intro rows
  induction rows with
  | nil => intro i idx; simp [buildIndexFrom, matchPositions]
  | cons r rest ih =>
    intro i idx
    rcases hg : rowGet r col with _ | w
    · simp [buildIndexFrom, matchPositions, hg, idxMatch, ih]
    · cases w with
      | vNull => simp [buildIndexFrom, matchPositions, hg, idxMatch, ih]
      | vBool b =>
        simp [buildIndexFrom, matchPositions, hg, idxMatch, ih, idxLookup_idxInsert,
          List.append_assoc]
      | vNum q =>
        simp [buildIndexFrom, matchPositions, hg, idxMatch, ih, idxLookup_idxInsert,
          List.append_assoc]
      | vNaN =>
        simp [buildIndexFrom, matchPositions, hg, idxMatch, ih, idxLookup_idxInsert,
          List.append_assoc]
      | vStr s =>
        simp [buildIndexFrom, matchPositions, hg, idxMatch, ih, idxLookup_idxInsert,
          List.append_assoc]

lemma idxLookup_buildIndex (col : String) (v : Value) (rows : List Row) :
    idxLookup (buildIndex col rows) v = matchPositions col v 0 rows := by
  have h := idxLookup_buildIndexFrom col v rows 0 []
  simpa [buildIndex, idxLookup] using h

lemma matchPositions_succ (col : String) (v : Value) :
    ∀ (rows : List Row) (i : Nat),
      matchPositions col v (i + 1) rows = (matchPositions col v i rows).map (· + 1) := by
  intro rows
  induction rows with
  | nil => intro i; simp [matchPositions]
  | cons r rest ih =>
    intro i
    by_cases h : idxMatch (rowGet r col) v = true <;>
      simp [matchPositions, h, ih (i + 1)]

lemma map_get_matchPositions (col : String) (v : Value) :
    ∀ rows : List Row,
      (matchPositions col v 0 rows).map (fun i => rows.get? i) =
        (rows.filter (fun r => idxMatch (rowGet r col) v)).map some := by
  intro rows
  induction rows with
  | nil => simp [matchPositions]
  | cons r rest ih =>
    have hshift := matchPositions_succ col v rest 0
    have hcomp : ∀ l : List Nat,
        l.map (fun i => (r :: rest).get? (i + 1)) = l.map (fun i => rest.get? i) := by
      intro l
      apply List.map_congr_left
      intro i _
      simp
    by_cases h : idxMatch (rowGet r col) v = true
    · simp [matchPositions, h, hshift, List.map_map, List.filter_cons, Function.comp_def,
        hcomp]
      simpa using ih
    · simp [matchPositions, h, hshift, List.map_map, List.filter_cons, Function.comp_def,
        hcomp]
      simpa using ih

lemma filterE_ok (p : Row → Bool) (f : Row → Except String Bool)
    (hf : ∀ r, f r = .ok (p r)) :
    ∀ rows : List Row, filterE f rows = .ok (rows.filter p) := by
  intro rows
  induction rows with
  | nil => simp [filterE]
  | cons r rest ih =>
    by_cases h : p r = true <;>
      simp [filterE, hf, ih, Bind.bind, Except.bind, List.filter_cons, h, pure, Except.pure]

lemma evaluateCondition_eq (row : Row) (col : String) (v : Value) :
    evaluateCondition row (.cmp col "=" v) = .ok (looseEq (rowGet row col) (some v)) := rfl

lemma scanRows_eq (rows : List Row) (col : String) (v : Value) :
    scanRows rows (.cmp col "=" v) =
      .ok ((rows.filter (fun r => looseEq (rowGet r col) (some v))).map some) := by
  unfold scanRows
  rw [filterE_ok (fun r => looseEq (rowGet r col) (some v))
    (fun r => evaluateCondition r (.cmp col "=" v)) (fun r => evaluateCondition_eq r col v) rows]
  rfl

/-- C1 counterexample: for the one-row table `{id: 1}` with an index on
`id` built from exactly these rows, the equality predicate `id = '1'`
(string literal against a stored number) returns no rows on the
index-assisted path (strict Map-key lookup misses) but returns the row on
a forced full scan (loose `==` coerces) — the two paths do not return
identical row sets. -/
theorem C1_index_scan_differ :
    filterRows (fun c => if c = "id" then some (buildIndex "id" [[("id", .vNum 1)]]) else none)
        [[("id", .vNum 1)]] (.cmp "id" "=" (.vStr "1")) = .ok [] ∧
    filterRows (fun _ => none) [[("id", .vNum 1)]] (.cmp "id" "=" (.vStr "1")) =
      .ok [some [("id", .vNum 1)]] ∧
    filterRows (fun c => if c = "id" then some (buildIndex "id" [[("id", .vNum 1)]]) else none)
        [[("id", .vNum 1)]] (.cmp "id" "=" (.vStr "1")) ≠
      filterRows (fun _ => none) [[("id", .vNum 1)]] (.cmp "id" "=" (.vStr "1")) := by
  refine ⟨by decide, by decide, by decide⟩

/-- C1 (amended): over an index built from the same loaded row sequence,
the index-assisted path of `filterRows` and a forced full scan agree (even
as ordered lists, hence as sets) for every equality predicate whose loose
(`==`) matches coincide with the index's matches (non-null SameValueZero
equality) on the table's column values — in particular whenever the
predicate value and the stored column values have the same scalar type.
In general the index path returns exactly the strict-equality matches
while the scan returns the loose-equality matches. -/
theorem C1_index_scan_equivalence (rows : List Row) (col : String) (v : Value)
    (hcol : col ≠ "")
    (h : ∀ r ∈ rows, looseEq (rowGet r col) (some v) = idxMatch (rowGet r col) v) :
    filterRows (fun c => if c = col then some (buildIndex col rows) else none) rows
        (.cmp col "=" v) =
      filterRows (fun _ => none) rows (.cmp col "=" v) := by
  have hL : filterRows (fun c => if c = col then some (buildIndex col rows) else none) rows
      (.cmp col "=" v) = .ok ((idxLookup (buildIndex col rows) v).map (fun i => rows.get? i)) := by
    simp [filterRows, lookup, hcol]
  have hR : filterRows (fun _ => none) rows (.cmp col "=" v) =
      scanRows rows (.cmp col "=" v) := by
    simp [filterRows, lookup, hcol]
  rw [hL, hR, scanRows_eq, idxLookup_buildIndex, map_get_matchPositions]
  exact congrArg _ (congrArg _ (List.filter_congr (fun r hr => (h r hr).symm)))

theorem C1_index_scan_equivalence_witness :
    (∀ r ∈ ([[("id", Value.vNum 1)], [("id", Value.vNum 2)]] : List Row),
      looseEq (rowGet r "id") (some (.vNum 1)) = idxMatch (rowGet r "id") (.vNum 1)) ∧
    filterRows
        (fun c => if c = "id" then
          some (buildIndex "id" [[("id", .vNum 1)], [("id", .vNum 2)]]) else none)
        [[("id", .vNum 1)], [("id", .vNum 2)]] (.cmp "id" "=" (.vNum 1)) =
      filterRows (fun _ => none) [[("id", .vNum 1)], [("id", .vNum 2)]]
        (.cmp "id" "=" (.vNum 1)) :=
  ⟨by decide,
   C1_index_scan_equivalence [[("id", .vNum 1)], [("id", .vNum 2)]] "id" (.vNum 1)
     (by decide) (by decide)⟩

lemma update_spec (updates : Row) (cond : Option (Row → Except String Bool)) (b : Row → Bool) :
    ∀ rows : List Row,
      (∀ r ∈ rows, (match cond with | none => pure true | some c => c r) = Except.ok (b r)) →
      Table.update updates cond rows =
        .ok (rows.countP b, rows.map (fun r => if b r then mergeRow r updates else r)) := by
  intro rows
  induction rows with
  | nil => intro _; cases cond <;> simp [Table.update]
  | cons r rest ih =>
    intro hb
    have hr := hb r (List.mem_cons_self r rest)
    have hrest := ih (fun r' hr' => hb r' (List.mem_cons_of_mem _ hr'))
    cases cond with
    | none =>
      have hbt : b r = true := by
        simpa [pure, Except.pure] using hr
      simp [Table.update, Bind.bind, Except.bind, hrest, List.countP_cons, hbt, pure,
        Except.pure, Nat.add_comm]
    | some c =>
      have hr' : c r = Except.ok (b r) := hr
      simp only [Table.update] at hrest ⊢
      rw [hr']
      by_cases hbr : b r = true <;>
        simp [Bind.bind, Except.bind, hrest, List.countP_cons, hbr, pure, Except.pure,
          Nat.add_comm]

lemma find_tables_save (t : String) (rows' : List Row) :
    ∀ (l : List (String × Metadata × List Row)) (e : String × Metadata × List Row),
      l.find? (fun p => p.1 = t) = some e →
      (l.map (fun p => if p.1 = t then (p.1, p.2.1, rows') else p)).find? (fun p => p.1 = t) =
        some (e.1, e.2.1, rows') := by
  intro l
  induction l with
  | nil => intro e h; simp at h
  | cons p l ih =>
    intro e h
    by_cases hp : p.1 = t
    · rw [List.find?_cons_of_pos _ (by simpa using hp)] at h
      simp only [Option.some.injEq] at h
      subst h
      simp only [List.map_cons, if_pos hp]
      rw [List.find?_cons_of_pos _ (by simpa using hp)]
    · rw [List.find?_cons_of_neg _ (by simpa using hp)] at h
      simp only [List.map_cons, if_neg hp]
      rw [List.find?_cons_of_neg _ (by simpa using hp)]
      exact ih e h

lemma getTableMeta_saveTableRows {db : DBState} {t : String} {meta : Metadata}
    {rows : List Row} (rows' : List Row) (h : getTableMeta db t = .ok (meta, rows)) :
    getTableMeta (saveTableRows db t rows') t = .ok (meta, rows') := by
  unfold getTableMeta at h
  unfold getTableMeta saveTableRows
  rcases hf : db.tables.find? (fun p => p.1 = t) with _ | e
  · rw [hf] at h; simp at h
  · rw [hf] at h
    simp only [Except.ok.injEq] at h
    obtain ⟨e1, e2, e3⟩ := e
    simp only at h
    rw [find_tables_save t rows' db.tables (e1, e2, e3) hf]
    simp only [Prod.mk.injEq] at h
    simp [h.1]

lemma getTableMeta_set_indexes (db : DBState) (idxs : List ((String × String) × IndexMap))
    (t : String) : getTableMeta { db with indexes := idxs } t = getTableMeta db t := rfl

lemma rebuildIndexes_ok {db : DBState} {t : String} {meta : Metadata} {rows : List Row}
    (h : getTableMeta db t = .ok (meta, rows)) :
    rebuildIndexes db t = .ok { db with indexes := rebuildIndexesState meta t rows db.indexes } := by
  unfold rebuildIndexes
  rw [h]
  rfl

/-- C9: an UPDATE on an existing table always reports success and persists
the plain spread-merge of the SET assignments over every matching row —
for arbitrary assignment values, with no type coercion and no NOT_NULL,
primary-key or unique-key validation consulted anywhere (compare
`Table.update` with `Table.insert`): storing null into a NOT_NULL column
or duplicating a primary-key value raises no error.  (The WHERE predicate
is assumed to evaluate without throwing, which holds for every parsed
condition over the six known operators.) -/
theorem C9_update_no_validation (db : DBState) (t : String) (meta : Metadata)
    (rows : List Row) (updates : Row) (whereC : Option Condition) (b : Row → Bool)
    (ht : getTableMeta db t = .ok (meta, rows))
    (hb : ∀ r ∈ rows, whereEval whereC r = .ok (b r)) :
    ∃ db2, executeUpdate db t updates whereC = .ok
        ({ success := true,
           message := some ("Updated " ++ toString (rows.countP b) ++ " row(s)"),
           count := some (rows.countP b) }, db2) ∧
      getTableMeta db2 t =
        .ok (meta, rows.map (fun r => if b r then mergeRow r updates else r)) := by
  have hcond : ∀ r ∈ rows,
      (match whereC.map (fun w => fun (row : Row) => evaluateCondition row w) with
       | none => pure true
       | some c => c r) = Except.ok (b r) := by
    intro r hr
    have hwe := hb r hr
    cases whereC with
    | none => simpa [whereEval, Option.map] using hwe
    | some w => simpa [whereEval, Option.map] using hwe
  have hupd := update_spec updates
    (whereC.map (fun w => fun (row : Row) => evaluateCondition row w)) b rows hcond
  have hsave := getTableMeta_saveTableRows
    (rows.map (fun r => if b r then mergeRow r updates else r)) ht
  have hreb := rebuildIndexes_ok hsave
  refine ⟨{ saveTableRows db t (rows.map (fun r => if b r then mergeRow r updates else r)) with
            indexes := rebuildIndexesState meta t
              (rows.map (fun r => if b r then mergeRow r updates else r))
              (saveTableRows db t
                (rows.map (fun r => if b r then mergeRow r updates else r))).indexes },
    ?_, ?_⟩
  · simp only [executeUpdate, ht, Bind.bind, Except.bind, hupd, hreb, pure, Except.pure]
  · rw [getTableMeta_set_indexes]
    exact hsave

theorem C9_update_no_validation_witness :
    ∃ db2, executeUpdate c9DB "t" [("name", .vNull)] none = .ok
        ({ success := true, message := some ("Updated " ++ toString (1 : Nat) ++ " row(s)"),
           count := some 1 }, db2) ∧
      getTableMeta db2 "t" = .ok (c9Meta, [[("id", .vNum 1), ("name", .vNull)]]) :=
  C9_update_no_validation c9DB "t" c9Meta [[("id", .vNum 1), ("name", .vStr "Alice")]]
    [("name", .vNull)] none (fun _ => true) (by decide) (by decide)

lemma validateUniqueKeys_nullish (row : Row) (existing : List Row) :
    ∀ us : List String, (∀ u ∈ us, isNullish (rowGet row u) = true) →
      Table.validateUniqueKeys row existing us = .ok () := by
  intro us
  induction us with
  | nil => intro _; rfl
  | cons u rest ih =>
    intro h
    have hu := h u (List.mem_cons_self u rest)
    have hrest := ih (fun u' hu' => h u' (List.mem_cons_of_mem _ hu'))
    rcases hg : rowGet row u with _ | w
    · simp [Table.validateUniqueKeys, hg, hrest]
    · cases w <;> rw [hg] at hu <;> simp_all [Table.validateUniqueKeys, hg, isNullish]

/-- C10: uniqueness checking skips null.  First part: an insert whose
prepared value for every unique-key column is null/undefined passes the
unique-key scan unconditionally — against any number of existing rows
(including rows already holding null in the same unique column) — and
succeeds whenever schema and primary-key validation pass.  Second part: a
declared primary key is a NOT_NULL column (as the parser always makes it),
and a prepared row with a null/absent primary-key value always makes
`insert` throw before any storage write, with a `cannot be null` violation
naming the primary-key column among the reported errors. -/
theorem C10_null_unique_skipped_null_pk_rejected :
    (∀ (meta : Metadata) (existingRows : List Row) (row : Row),
        (∀ u ∈ meta.uniqueKeys, isNullish (rowGet (Table.prepareRow meta row) u) = true) →
        Table.validateRow meta (Table.prepareRow meta row) = .ok () →
        Table.validatePrimaryKey meta (Table.prepareRow meta row) existingRows = .ok () →
        Table.insert meta existingRows row =
          .ok (Table.prepareRow meta row, existingRows ++ [Table.prepareRow meta row])) ∧
    (∀ (meta : Metadata) (existingRows : List Row) (row : Row) (pk : String) (c : Column),
        meta.primaryKey = some pk → c ∈ meta.columns → c.name = pk →
        "NOT_NULL" ∈ c.constraints →
        isNullish (rowGet (Table.prepareRow meta row) pk) = true →
        ∃ errs, Table.insert meta existingRows row =
            .error ("Validation failed: " ++ String.intercalate ", " errs) ∧
          ("Column " ++ sqS ++ pk ++ sqS ++ " cannot be null") ∈ errs) := by
  constructor
  · intro meta existingRows row hnull hvr hpk
    have huk := validateUniqueKeys_nullish (Table.prepareRow meta row) existingRows
      meta.uniqueKeys hnull
    simp [Table.insert, hvr, hpk, huk, Bind.bind, Except.bind, pure, Except.pure]
  · intro meta existingRows row pk c hpk hc hname hnn hnull
    have hmsg : ("Column " ++ sqS ++ pk ++ sqS ++ " cannot be null") ∈
        Table.columnErrors (Table.prepareRow meta row) c := by
      simp [Table.columnErrors, hname, hnn, hnull]
    have hmem : ("Column " ++ sqS ++ pk ++ sqS ++ " cannot be null") ∈
        Table.rowErrors meta (Table.prepareRow meta row) := by
      unfold Table.rowErrors
      exact List.mem_flatMap.mpr ⟨c, hc, hmsg⟩
    rcases herrs : Table.rowErrors meta (Table.prepareRow meta row) with _ | ⟨e, es⟩
    · rw [herrs] at hmem; simp at hmem
    · refine ⟨e :: es, ?_, herrs ▸ hmem⟩
      have hvr : Table.validateRow meta (Table.prepareRow meta row) =
          .error ("Validation failed: " ++ String.intercalate ", " (e :: es)) := by
        unfold Table.validateRow
        rw [herrs]
      simp [Table.insert, hvr, Bind.bind, Except.bind]

theorem C10_null_unique_skipped_null_pk_rejected_witness :
    (Table.insert c10Meta [[("id", .vNum 1), ("email", .vNull)]] [("id", .vNum 2)] =
      .ok ([("id", .vNum 2), ("email", .vNull)],
           [[("id", .vNum 1), ("email", .vNull)], [("id", .vNum 2), ("email", .vNull)]])) ∧
    (∃ errs, Table.insert c10Meta [] [("email", .vStr "a@b.com")] =
        .error ("Validation failed: " ++ String.intercalate ", " errs) ∧
      ("Column " ++ sqS ++ "id" ++ sqS ++ " cannot be null") ∈ errs) :=
  ⟨C10_null_unique_skipped_null_pk_rejected.1 c10Meta
      [[("id", .vNum 1), ("email", .vNull)]] [("id", .vNum 2)]
      (by decide) (by decide) (by decide),
   C10_null_unique_skipped_null_pk_rejected.2 c10Meta [] [("email", .vStr "a@b.com")]
      "id" ⟨"id", "INTEGER", ["PRIMARY_KEY", "NOT_NULL"]⟩
      (by decide) (by decide) (by decide) (by decide) (by decide)⟩

lemma insert_ok_elim {meta : Metadata} {existingRows : List Row} {row ret : Row}
    {rows1 : List Row} (h : Table.insert meta existingRows row = .ok (ret, rows1)) :
    ret = Table.prepareRow meta row ∧
    rows1 = existingRows ++ [Table.prepareRow meta row] ∧
    Table.validateRow meta (Table.prepareRow meta row) = .ok () ∧
    Table.validatePrimaryKey meta (Table.prepareRow meta row) existingRows = .ok () ∧
    Table.validateUniqueKeys (Table.prepareRow meta row) existingRows meta.uniqueKeys = .ok () := by
  simp only [Table.insert] at h
  rw [bind_ok_iff] at h; obtain ⟨u1, h1, h⟩ := h
  rw [bind_ok_iff] at h; obtain ⟨u2, h2, h⟩ := h
  rw [bind_ok_iff] at h; obtain ⟨u3, h3, h⟩ := h
  simp only [pure, Except.pure, Except.ok.injEq, Prod.mk.injEq] at h
  cases u1; cases u2; cases u3
  exact ⟨h.1.symm, h.2.symm, h1, h2, h3⟩

lemma validatePrimaryKey_truthy {meta : Metadata} {pk : String}
    (hpk : pkTruthy meta.primaryKey = some pk) (row : Row) (existing : List Row) :
    Table.validatePrimaryKey meta row existing = Table.pkCheck pk existing (rowGet row pk) := by
  unfold Table.validatePrimaryKey
  rw [hpk]

lemma validatePrimaryKey_ok_elim {meta : Metadata} {row : Row} {existing : List Row}
    {pk : String} {v : Value} (hpk : pkTruthy meta.primaryKey = some pk)
    (hv : rowGet row pk = some v)
    (h : Table.validatePrimaryKey meta row existing = .ok ()) :
    v ≠ .vNull ∧ ∀ r ∈ existing, strictEqO (rowGet r pk) (some v) = false := by
  rw [validatePrimaryKey_truthy hpk, hv] at h
  have hfind :
      existing.find? (fun r => strictEqO (rowGet r pk) (some v)) = none → 
      ∀ r ∈ existing, strictEqO (rowGet r pk) (some v) = false := by
    intro hf r hr
    have := List.find?_eq_none.mp hf r hr
    simpa using this
  cases v with
  | vNull => simp [Table.pkCheck] at h
  | vBool b =>
    refine ⟨by simp, ?_⟩
    rcases hf : existing.find? (fun r => strictEqO (rowGet r pk) (some (.vBool b))) with _ | e
    · exact hfind hf
    · simp [Table.pkCheck, hf] at h
  | vNum q =>
    refine ⟨by simp, ?_⟩
    rcases hf : existing.find? (fun r => strictEqO (rowGet r pk) (some (.vNum q))) with _ | e
    · exact hfind hf
    · simp [Table.pkCheck, hf] at h
  | vNaN =>
    refine ⟨by simp, ?_⟩
    rcases hf : existing.find? (fun r => strictEqO (rowGet r pk) (some .vNaN)) with _ | e
    · exact hfind hf
    · simp [Table.pkCheck, hf] at h
  | vStr t =>
    refine ⟨by simp, ?_⟩
    rcases hf : existing.find? (fun r => strictEqO (rowGet r pk) (some (.vStr t))) with _ | e
    · exact hfind hf
    · simp [Table.pkCheck, hf] at h

/-- C3 (amended): after a successful insert with primary-key value v, a
second insert whose prepared row carries a strictly-equal primary-key
value always fails — with the duplicate-key error whenever the prepared
row passes schema (type / NOT-NULL) validation — and, failing before the
storage append, leaves the stored row sequence untouched. -/
theorem C3_duplicate_pk_second_insert (meta : Metadata) (rows0 : List Row) (r1 r2 : Row)
    (pk : String) (v1 v2 : Value) (ret1 : Row) (rows1 : List Row)
    (hpk : meta.primaryKey = some pk) (hpkne : pk ≠ "")
    (h1 : Table.insert meta rows0 r1 = .ok (ret1, rows1))
    (hv1 : rowGet (Table.prepareRow meta r1) pk = some v1)
    (hv2 : rowGet (Table.prepareRow meta r2) pk = some v2)
    (heq : strictEqV v2 v1 = true)
    (hval : Table.validateRow meta (Table.prepareRow meta r2) = .ok ()) :
    Table.insert meta rows1 r2 = .error ("Duplicate primary key value: " ++ jsToString v2) := by
  have hpkt : pkTruthy meta.primaryKey = some pk := by simp [pkTruthy, hpk, hpkne]
  obtain ⟨-, hrows1, -, hpk1, -⟩ := insert_ok_elim h1
  obtain ⟨hv1ne, -⟩ := validatePrimaryKey_ok_elim hpkt hv1 hpk1
  have hv2ne : v2 ≠ .vNull := by
    intro hc
    subst hc
    cases v1 <;> simp_all [strictEqV]
  have hdup : ∃ r ∈ rows1, strictEqO (rowGet r pk) (some v2) = true := by
    refine ⟨Table.prepareRow meta r1, ?_, ?_⟩
    · rw [hrows1]
      exact List.mem_append_right _ (by simp)
    · rw [hv1]
      simpa [strictEqO] using (strictEqV_symm v2 v1 ▸ heq)
  have hsome : (rows1.find? (fun r => strictEqO (rowGet r pk) (some v2))).isSome := by
    rw [List.find?_isSome]
    obtain ⟨r, hr, hsr⟩ := hdup
    exact ⟨r, hr, hsr⟩
  obtain ⟨e, he⟩ := Option.isSome_iff_exists.mp hsome
  have hvpk2 : Table.validatePrimaryKey meta (Table.prepareRow meta r2) rows1 =
      .error ("Duplicate primary key value: " ++ jsToString v2) := by
    rw [validatePrimaryKey_truthy hpkt, hv2]
    cases v2 with
    | vNull => exact absurd rfl hv2ne
    | vBool b => simp [Table.pkCheck, he]
    | vNum q => simp [Table.pkCheck, he]
    | vNaN => simp [Table.pkCheck, he]
    | vStr t => simp [Table.pkCheck, he]
  simp [Table.insert, hval, hvpk2, Bind.bind, Except.bind]

theorem C3_duplicate_pk_second_insert_witness :
    Table.insert c3Meta [[("id", .vNum 1), ("n", .vNum 1)]] [("id", .vNum 1), ("n", .vNum 2)] =
      .error ("Duplicate primary key value: " ++ jsToString (.vNum 1)) :=
  C3_duplicate_pk_second_insert c3Meta [] [("id", .vNum 1), ("n", .vNum 1)]
    [("id", .vNum 1), ("n", .vNum 2)] "id" (.vNum 1) (.vNum 1)
    [("id", .vNum 1), ("n", .vNum 1)] [[("id", .vNum 1), ("n", .vNum 1)]]
    (by decide) (by decide) (by decide) (by decide) (by decide) (by decide) (by decide)

/-- C3 counterexample: a second insert whose prepared row has an equal
(strict `===`) primary-key value does not always fail with the
duplicate-key error — when the prepared row also violates the schema, the
aggregated type-validation error is thrown first (`validateRow` runs
before `validatePrimaryKey`).  Stored state is still unchanged, but the
error is not the duplicate-key one the claim requires. -/
theorem C3_duplicate_pk_type_error_first :
    Table.insert c3Meta [] [("id", .vNum 1), ("n", .vNum 1)] =
      .ok ([("id", .vNum 1), ("n", .vNum 1)], [[("id", .vNum 1), ("n", .vNum 1)]]) ∧
    rowGet (Table.prepareRow c3Meta [("id", .vNum 1), ("n", .vStr "abc")]) "id" =
      some (.vNum 1) ∧
    Table.insert c3Meta [[("id", .vNum 1), ("n", .vNum 1)]]
        [("id", .vNum 1), ("n", .vStr "abc")] =
      .error ("Validation failed: Invalid type for column " ++ sqS ++ "n" ++ sqS ++
        ". Expected INTEGER") ∧
    ("Validation failed: Invalid type for column " ++ sqS ++ "n" ++ sqS ++
        ". Expected INTEGER") ≠ ("Duplicate primary key value: " ++ jsToString (.vNum 1)) := by
  refine ⟨by decide, by decide, by decide, by decide⟩

lemma find_filter_ne (key key' : String × String) (h : key ≠ key') :
    ∀ l : List ((String × String) × IndexMap),
      (l.filter (fun p => p.1 ≠ key')).find? (fun p => p.1 = key) =
        l.find? (fun p => p.1 = key) := by
  intro l
  induction l with
  | nil => simp
  | cons p l ih =>
    by_cases hp : p.1 = key
    · have hne : p.1 ≠ key' := by rw [hp]; exact h
      rw [List.filter_cons_of_pos (by simpa using hne)]
      rw [List.find?_cons_of_pos _ (by simpa using hp),
        List.find?_cons_of_pos _ (by simpa using hp)]
    · by_cases hp' : p.1 = key'
      · rw [List.filter_cons_of_neg (by simpa using hp')]
        rw [List.find?_cons_of_neg _ (by simpa using hp)]
        exact ih
      · rw [List.filter_cons_of_pos (by simpa using hp')]
        rw [List.find?_cons_of_neg _ (by simpa using hp),
          List.find?_cons_of_neg _ (by simpa using hp)]
        exact ih

lemma findIdx_idxSet_eq (idxs : List ((String × String) × IndexMap))
    (key : String × String) (m : IndexMap) : findIdx (idxSet idxs key m) key = some m := by
  unfold findIdx idxSet idxRemove
  rw [List.find?_append]
  have hnone : (idxs.filter (fun p => p.1 ≠ key)).find? (fun p => p.1 = key) = none := by
    rw [List.find?_eq_none]
    intro x hx
    have hne := (List.mem_filter.mp hx).2
    simp at hne ⊢
    exact hne
  rw [hnone]
  simp [List.find?]

lemma findIdx_idxSet_ne (idxs : List ((String × String) × IndexMap))
    (key key' : String × String) (m : IndexMap) (h : key ≠ key') :
    findIdx (idxSet idxs key' m) key = findIdx idxs key := by
  unfold findIdx idxSet idxRemove
  rw [List.find?_append, find_filter_ne key key' h]
  rcases hf : idxs.find? (fun p => p.1 = key) with _ | e
  · rw [hf]
    simp [List.find?, Ne.symm h]
  · rw [hf]
    simp

lemma findIdx_fold_unique (t pk : String) (rows : List Row) (v : IndexMap)
    (hv : v = buildIndex pk rows) :
    ∀ (us : List String) (acc : List ((String × String) × IndexMap)),
      findIdx acc (t, pk) = some v →
      findIdx (us.foldl (fun a u => idxSet a (t, u) (buildIndex u rows)) acc) (t, pk) =
        some v := by
  intro us
  induction us with
  | nil => intro acc h; simpa using h
  | cons u rest ih =>
    intro acc h
    simp only [List.foldl_cons]
    apply ih
    by_cases hu : u = pk
    · subst hu
      rw [findIdx_idxSet_eq, hv]
    · rw [findIdx_idxSet_ne _ _ _ _ (by simp [hu, Ne, Prod.ext_iff]; exact fun hc => (hu hc.symm).elim)]
      exact h

lemma findIdx_rebuildIndexesState (meta : Metadata) (t : String) (rows : List Row)
    (idxs : List ((String × String) × IndexMap)) (pk : String)
    (hpk : pkTruthy meta.primaryKey = some pk) :
    findIdx (rebuildIndexesState meta t rows idxs) (t, pk) = some (buildIndex pk rows) := by
  unfold rebuildIndexesState
  rw [hpk]
  exact findIdx_fold_unique t pk rows _ rfl meta.uniqueKeys _ (findIdx_idxSet_eq _ _ _)

lemma idxFor_eq_findIdx (db : DBState) (t c : String) :
    idxFor db t c = findIdx db.indexes (t, c) := rfl

lemma matchPositions_append (col : String) (v : Value) :
    ∀ (l1 l2 : List Row) (i : Nat),
      matchPositions col v i (l1 ++ l2) =
        matchPositions col v i l1 ++ matchPositions col v (i + l1.length) l2 := by
  intro l1
  induction l1 with
  | nil => intro l2 i; simp [matchPositions]
  | cons r rest ih =>
    intro l2 i
    have harith : i + (rest.length + 1) = i + 1 + rest.length := by omega
    simp only [List.cons_append, matchPositions, List.length_cons, harith, List.append_assoc]
    rw [show rest.append l2 = rest ++ l2 from rfl, ih l2 (i + 1)]

lemma matchPositions_nil_of_none (col : String) (v : Value) :
    ∀ (l : List Row) (i : Nat), (∀ r ∈ l, idxMatch (rowGet r col) v = false) →
      matchPositions col v i l = [] := by
  intro l
  induction l with
  | nil => intro i _; rfl
  | cons r rest ih =>
    intro i h
    have hr := h r (List.mem_cons_self r rest)
    simp [matchPositions, hr, ih (i + 1) (fun r' hr' => h r' (List.mem_cons_of_mem _ hr'))]

lemma idxMatch_eq_strictEqO {v : Value} (hnan : v ≠ .vNaN) (hnull : v ≠ .vNull)
    (x : Option Value) : idxMatch x v = strictEqO x (some v) := by
  cases x with
  | none => simp [idxMatch, strictEqO]
  | some w => cases w <;> cases v <;> simp_all [idxMatch, strictEqO, svzV, strictEqV]

/-- C4 (amended): after a successful INSERT through the executor, an
immediate `SELECT *` with the single condition `pk = v` (the prepared
primary-key value, provided it is not NaN) returns exactly the stored
prepared row, field for field, and no other row: the rebuilt primary-key
index maps `v` to the single position of the new row, because the
successful insert guarantees no earlier row carries a strictly-equal key.
The NaN proviso is a real restriction, reachable through plain SQL (see
the counterexample's session). -/
theorem C4_insert_select_roundtrip (db : DBState) (t : String) (meta : Metadata)
    (rows0 : List Row) (row : Row) (pk : String) (v : Value)
    (res1 : ExecResult) (db1 : DBState)
    (hmeta : getTableMeta db t = .ok (meta, rows0))
    (hpk : meta.primaryKey = some pk) (hpkne : pk ≠ "")
    (hv : rowGet (Table.prepareRow meta row) pk = some v)
    (hnan : v ≠ .vNaN)
    (hins : execute db (.insertQ t row) = .ok (res1, db1)) :
    executeSelect db1
      { columns := ["*"], tableName := t, tableAlias := none, join := none,
        whereC := some (.cmp pk "=" v) } =
      .ok ({ success := true, rows := some [some (Table.prepareRow meta row)],
             count := some 1 }, db1) := by
  have hpkt : pkTruthy meta.primaryKey = some pk := by simp [pkTruthy, hpk, hpkne]
  simp only [execute, executeInsert] at hins
  rw [bind_ok_iff] at hins
  obtain ⟨td, htd, hins⟩ := hins
  rw [hmeta] at htd
  have htd' : td = (meta, rows0) := by
    have := htd.symm
    simpa using this
  subst htd'
  rw [bind_ok_iff] at hins
  obtain ⟨ins, hinsert, hins⟩ := hins
  obtain ⟨ret, newRows⟩ := ins
  obtain ⟨hret, hnewRows, hvr, hvpk, hvuk⟩ := insert_ok_elim hinsert
  subst hnewRows
  rw [bind_ok_iff] at hins
  obtain ⟨db2, hreb, hins⟩ := hins
  have hsave := getTableMeta_saveTableRows (rows0 ++ [Table.prepareRow meta row]) hmeta
  rw [rebuildIndexes_ok hsave] at hreb
  have hdb2 : db2 = { saveTableRows db t (rows0 ++ [Table.prepareRow meta row]) with
      indexes := rebuildIndexesState meta t (rows0 ++ [Table.prepareRow meta row])
        (saveTableRows db t (rows0 ++ [Table.prepareRow meta row])).indexes } := by
    have := hreb.symm
    simpa using this
  subst hdb2
  simp only [pure, Except.pure, Except.ok.injEq, Prod.mk.injEq] at hins
  obtain ⟨-, hdb1⟩ := hins
  subst hdb1
  obtain ⟨hvnull, hnone⟩ := validatePrimaryKey_ok_elim hpkt hv hvpk
  have hmeta1 : getTableMeta
      { saveTableRows db t (rows0 ++ [Table.prepareRow meta row]) with
        indexes := rebuildIndexesState meta t (rows0 ++ [Table.prepareRow meta row])
          (saveTableRows db t (rows0 ++ [Table.prepareRow meta row])).indexes } t =
      .ok (meta, rows0 ++ [Table.prepareRow meta row]) := by
    rw [getTableMeta_set_indexes]
    exact hsave
  have hidx : idxFor
      { saveTableRows db t (rows0 ++ [Table.prepareRow meta row]) with
        indexes := rebuildIndexesState meta t (rows0 ++ [Table.prepareRow meta row])
          (saveTableRows db t (rows0 ++ [Table.prepareRow meta row])).indexes } t pk =
      some (buildIndex pk (rows0 ++ [Table.prepareRow meta row])) := by
    rw [idxFor_eq_findIdx]
    exact findIdx_rebuildIndexesState meta t _ _ pk hpkt
  have hself : idxMatch (some v) v = true := by
    cases v <;> simp_all [idxMatch, svzV, strictEqV]
  have hmatch : idxLookup (buildIndex pk (rows0 ++ [Table.prepareRow meta row])) v =
      [rows0.length] := by
    rw [idxLookup_buildIndex, matchPositions_append]
    rw [matchPositions_nil_of_none pk v rows0 0 (fun r hr => by
      rw [idxMatch_eq_strictEqO hnan hvnull]
      exact hnone r hr)]
    simp [matchPositions, hv, hself]
  have hget : (rows0 ++ [Table.prepareRow meta row]).get? rows0.length =
      some (Table.prepareRow meta row) := by
    rw [List.get?_eq_getElem?, List.getElem?_concat_length]
  have hwr : whereRows
      { saveTableRows db t (rows0 ++ [Table.prepareRow meta row]) with
        indexes := rebuildIndexesState meta t (rows0 ++ [Table.prepareRow meta row])
          (saveTableRows db t (rows0 ++ [Table.prepareRow meta row])).indexes }
      { columns := ["*"], tableName := t, tableAlias := none, join := none,
        whereC := some (.cmp pk "=" v) } (rows0 ++ [Table.prepareRow meta row]) =
      .ok [some (Table.prepareRow meta row)] := by
    unfold whereRows
    simp only
    unfold filterRows
    simp only [lookup, hidx, if_neg hpkne, hmatch, List.map_cons, List.map_nil, hget]
  simp only [executeSelect, hmeta1, Bind.bind, Except.bind, hwr]
  simp [pure, Except.pure]

theorem C4_insert_select_roundtrip_witness :
    executeSelect c4wDB1
      { columns := ["*"], tableName := "t", tableAlias := none, join := none,
        whereC := some (.cmp "id" "=" (.vNum 7)) } =
      .ok ({ success := true, rows := some [some [("id", .vNum 7)]], count := some 1 },
        c4wDB1) :=
  C4_insert_select_roundtrip c4wDB0 "t" c4wMeta [] [("id", .vNum 7)] "id" (.vNum 7)
    { success := true, message := some ("Row inserted into " ++ sqS ++ "t" ++ sqS),
      row := some [("id", .vNum 7)] } c4wDB1
    (by decide) (by decide) (by decide) (by decide) (by decide) (by decide)

/-- C4 counterexample: a NaN primary-key value defeats the claim as
stated, and such a state is reachable through plain SQL.  `parseValues`
pushes `parseValue("")` at every comma and `parseValue("") = parseInt("")`
is NaN, so `INSERT INTO t2 (id) VALUES (,)` builds the row `{id: NaN}`;
under the free-form declared type `BLOB` it passes the type check, and
since `NaN === NaN` is false the duplicate scan accepts it twice; the
index's SameValueZero key equality then groups both rows under one NaN
key, and `WHERE id =` (empty right-hand side) probes NaN — so the
round-trip select after the second successful insert returns both rows,
not exactly the row just inserted. -/
theorem C4_nan_pk_roundtrip_fails :
    parseValue "" = Value.vNaN ∧
    parse "INSERT INTO t2 (id) VALUES (,)" = .ok (.insertQ "t2" [("id", Value.vNaN)]) ∧
    (query c4s1 "INSERT INTO t2 (id) VALUES (,)").1.success = true ∧
    (query c4s2 "INSERT INTO t2 (id) VALUES (,)").1.success = true ∧
    parse "SELECT * FROM t2 WHERE id =" = .ok (.selectQ
      { columns := ["*"], tableName := "t2", tableAlias := some "WHERE", join := none,
        whereC := some (.cmp "id" "=" Value.vNaN) }) ∧
    (query c4s3 "SELECT * FROM t2 WHERE id =").1.rows =
      some [some [("id", Value.vNaN)], some [("id", Value.vNaN)]] ∧
    (query c4s3 "SELECT * FROM t2 WHERE id =").1.count = some 2 := by
  refine ⟨by decide, by rfl, by decide, by decide, by rfl, by decide, by decide⟩
